import Mathlib

/-!
# QuickNES libretro bridge (`libretro/libretro.cpp`)

A shallow embedding of the bridging layer between the QuickNES emulation core and a
libretro host: audio buffer selection, option handling, video geometry, frame conversion,
input merging, audio shaping and memory-region queries.

Conventions of the embedding:

* the file-scope variables of `libretro.cpp` are the fields of `Globals`; every function
  that writes them takes the old record and returns the new one;
* calls made to the emulation core and to the host are recorded, in order, as a list of
  `Call`s returned next to the new state;
* host callbacks are function arguments;
* C arrays are `Mem` values (a size and the contents), read and written through bounds
  checked accessors that yield `none` outside the array;
* `int` / `unsigned` values are natural numbers (32-bit patterns where a complement is
  taken), `uint16_t` stores are reduced modulo `2 ^ 16`;
* `double` / `float` values are non-negative binary floating-point numbers `Flt`
  (significand and exponent) with round-to-nearest-even arithmetic.
-/

namespace QuickNES

/-! ## Data model -/

/-- The four audio buffers declared at file scope: `mono_buffer`, `nes_buffer`,
`effects_buffer` and `silent_buffer`.  A `Multi_Buffer *` is an `Option Multi_Buffer`,
`none` being `NULL`. -/
inductive Multi_Buffer
  | mono_buffer
  | nes_buffer
  | effects_buffer
  | silent_buffer
  deriving DecidableEq, Repr

/-- Equalizer presets of the core that `update_audio_mode` selects from. -/
inductive Equalizer
  | nes_eq
  | famicom_eq
  | tv_eq
  | flat_eq
  | crisp_eq
  | tinny_eq
  deriving DecidableEq, Repr

/-- Sprite modes of the core that `check_variables` selects from. -/
inductive SpriteMode
  | sprites_enhanced
  | sprites_visible
  deriving DecidableEq, Repr

/-- The mutable file-scope variables of `libretro.cpp` (non-PSP build). -/
structure Globals where
  aspect_ratio_par : Bool
  use_overscan_v : Bool
  use_overscan_h : Bool
  up_down_allowed : Bool
  current_buffer : Option Multi_Buffer
  use_silent_buffer : Bool
  deriving DecidableEq, Repr

/-- The answer of `environ_cb(RETRO_ENVIRONMENT_GET_VARIABLE, &var)`: for a key and the
`value` field `var` holds when the call is made, the callback's return value and the
`value` field afterwards (`none` is a null pointer). -/
abbrev GetVariable := String → Option String → Bool × Option String

/-- A C array: its declared number of elements and its contents.  Only indices below
`size` are part of the array. -/
structure Mem (α : Type) where
  size : Nat
  data : Nat → α

/-- Bounds-checked read of element `i`. -/
def Mem.read {α : Type} (a : Mem α) (i : Nat) : Option α :=
  if i < a.size then some (a.data i) else none

/-- Bounds-checked store of `v` into element `i`. -/
def Mem.write {α : Type} (a : Mem α) (i : Nat) (v : α) : Option (Mem α) :=
  if i < a.size then some ⟨a.size, fun j => if j = i then v else a.data j⟩ else none

/-- The loop `for (i = 0; i < n; i++) body(i)` over a state that a failing body aborts:
the bodies for `0, 1, ..., n - 1` run in this order. -/
def for_loop {σ : Type} (n : Nat) (body : Nat → σ → Option σ) (s : σ) : Option σ :=
  match n with
  | 0 => some s
  | k + 1 => (for_loop k body s).bind (body k)

/-! ## Binary floating point -/

/-- A finite non-negative binary floating-point value `m * 2 ^ e`. -/
structure Flt where
  m : Nat
  e : Int
  deriving DecidableEq, Repr

/-- The rational number a floating-point value denotes. -/
def Flt.toRat (x : Flt) : ℚ := (x.m : ℚ) * (2 : ℚ) ^ x.e

/-- Conversion of an `unsigned` to `double`; exact below `2 ^ 53`. -/
def Flt.ofNat (n : Nat) : Flt := ⟨n, 0⟩

/-- The position of the leading binary digit of `n` (zero for `n < 2`); the first argument
bounds the number of halvings and is taken to be `n` itself. -/
def log2Floor : Nat → Nat → Nat
  | 0, _ => 0
  | fuel + 1, n => if n < 2 then 0 else log2Floor fuel (n / 2) + 1

/-- The quotient `n / d` of two naturals (`d` positive) rounded to a `p`-bit significand,
ties to even, exponent range unbounded.  Zero stays zero. -/
def roundRatio (p : Nat) (n d : Nat) : Flt :=
  if n = 0 then ⟨0, 0⟩ else
  -- e0 is the binary exponent of n / d or one more than it
  let e0 : Int := (log2Floor n n : Int) - (log2Floor d d : Int)
  let e : Int := if n * 2 ^ (-e0).toNat < d * 2 ^ e0.toNat then e0 - 1 else e0
  -- scale so that the quotient has p bits before the binary point
  let k : Int := (p : Int) - 1 - e
  let N := n * 2 ^ k.toNat
  let D := d * 2 ^ (-k).toNat
  let q := N / D
  let r := N % D
  let q1 := if 2 * r < D then q else if D < 2 * r then q + 1 else if q % 2 = 0 then q else q + 1
  ⟨q1, -k⟩

/-- Rounding of a floating-point product or quotient `(a.m / b.m) * 2 ^ (a.e - b.e)`. -/
def Flt.div (p : Nat) (a b : Flt) : Flt :=
  let r := roundRatio p a.m b.m
  ⟨r.m, r.e + (a.e - b.e)⟩

/-- Rounded floating-point product. -/
def Flt.mul (p : Nat) (a b : Flt) : Flt :=
  let r := roundRatio p (a.m * b.m) 1
  ⟨r.m, r.e + (a.e + b.e)⟩

/-- Conversion to a narrower format with a `p`-bit significand. -/
def Flt.round (p : Nat) (a : Flt) : Flt :=
  let r := roundRatio p a.m 1
  ⟨r.m, r.e + a.e⟩

/-- Significand width of `double`. -/
def dbl : Nat := 53

/-- Significand width of `float`. -/
def sgl : Nat := 24

/-! ## Video geometry -/

/-- Modelled from the spec: `Nes_Emu::image_width`, declared in `Nes_Emu.h` (not among the
sources); the native picture is 256 pixels wide. -/
def Nes_Emu.image_width : Nat := 256

/-- Modelled from the spec: `Nes_Emu::image_height`, declared in `Nes_Emu.h` (not among the
sources); the native picture is 240 pixels high. -/
def Nes_Emu.image_height : Nat := 240

/-- The macro `NES_4_3`, `(4.0 / 3.0)`, a `double`. -/
def NES_4_3 : Flt := Flt.div dbl (Flt.ofNat 4) (Flt.ofNat 3)

/-- The macro `NES_PAR`, `(width * (8.0 / 7.0) / height)`, evaluated in `double`. -/
def NES_PAR (width height : Nat) : Flt :=
  Flt.div dbl (Flt.mul dbl (Flt.ofNat width) (Flt.div dbl (Flt.ofNat 8) (Flt.ofNat 7)))
    (Flt.ofNat height)

/-- The function `get_aspect_ratio`: the selected `double` converted to the `float`
return type. -/
def get_aspect_ratio (g : Globals) (width height : Nat) : Flt :=
  Flt.round sgl (if g.aspect_ratio_par then NES_PAR width height else NES_4_3)

/-- The `geometry` member of `struct retro_system_av_info` as this file fills it. -/
structure retro_game_geometry where
  base_width : Nat
  base_height : Nat
  max_width : Nat
  max_height : Nat
  aspect_ratio : Flt
  deriving DecidableEq, Repr

/-- The function `retro_get_system_av_info` (non-PSP build), geometry part.  The
`timing` member is the constant pair of the core frame rate and 44100.0 and is not
modelled.  The subtraction is done in `int` and stored in an `unsigned`. -/
def retro_get_system_av_info (g : Globals) : retro_game_geometry :=
  let width : Nat :=
    (((Nes_Emu.image_width : Int) - (if g.use_overscan_h then 0 else 16)) % 2 ^ 32).toNat
  let height : Nat :=
    (((Nes_Emu.image_height : Int) - (if g.use_overscan_v then 0 else 16)) % 2 ^ 32).toNat
  { base_width := width
    base_height := height
    max_width := width
    max_height := height
    aspect_ratio := get_aspect_ratio g width height }

/-- Calls to the emulation core and to the host, in the order they are made. -/
inductive Call
  | set_sample_rate (rate : Nat) (buf : Multi_Buffer)
  | effects_config
  | set_equalizer (eq : Equalizer)
  | set_sprite_mode (mode : SpriteMode)
  | set_geometry (info : retro_game_geometry)
  | input_poll
  | emulate_frame (joypad1 joypad2 : Nat)
  | emulate_skip_frame (joypad1 joypad2 : Nat)
  | video_cb (data : Mem Nat) (offset width height pitch : Nat)
  | read_samples (discard : Bool)
  | audio_batch_cb (data : Mem Int) (frames : Nat)

/-- Whether a call is `emu->set_sample_rate(...)`. -/
def Call.isSetSampleRate : Call → Bool
  | .set_sample_rate _ _ => true
  | _ => false

/-- Whether a call is `environ_cb(RETRO_ENVIRONMENT_SET_GEOMETRY, ...)`. -/
def Call.isSetGeometry : Call → Bool
  | .set_geometry _ => true
  | _ => false

/-! ## Audio buffer selection -/

/-- The part of `update_audio_mode` that reads the option `quicknes_audio_nonlinear` and
selects the buffer; `effects_buffer.config(c)` is recorded without its constant
argument. -/
def select_audio_buffer (env : GetVariable) (g : Globals) : Globals × List Call :=
  -- struct retro_variable var = { 0 }; var.key = "quicknes_audio_nonlinear";
  match env "quicknes_audio_nonlinear" none with
  | (true, some value) =>
    if value = "nonlinear" then
      if g.current_buffer ≠ some .nes_buffer then
        ({ g with current_buffer := some .nes_buffer },
          [Call.set_sample_rate 44100 .nes_buffer])
      else (g, [])
    else if value = "stereo panning" then
      let sel : Globals × List Call :=
        if g.current_buffer ≠ some .effects_buffer then
          ({ g with current_buffer := some .effects_buffer },
            [Call.set_sample_rate 44100 .effects_buffer])
        else (g, [])
      (sel.1, sel.2 ++ [Call.effects_config])
    else
      if g.current_buffer ≠ some .mono_buffer then
        ({ g with current_buffer := some .mono_buffer },
          [Call.set_sample_rate 44100 .mono_buffer])
      else (g, [])
  | _ =>
    if g.current_buffer ≠ some .nes_buffer then
      ({ g with current_buffer := some .nes_buffer },
        [Call.set_sample_rate 44100 .nes_buffer])
    else (g, [])

/-- The part of `update_audio_mode` that reads the option `quicknes_audio_eq` and picks
the argument of `emu->set_equalizer`. -/
def select_equalizer (env : GetVariable) : Equalizer :=
  -- var.key = "quicknes_audio_eq"; var.value = NULL;
  match env "quicknes_audio_eq" none with
  | (true, some value) =>
    if value = "default" then .nes_eq
    else if value = "nes" then .nes_eq
    else if value = "famicom" then .famicom_eq
    else if value = "tv" then .tv_eq
    else if value = "flat" then .flat_eq
    else if value = "crisp" then .crisp_eq
    else if value = "tinny" then .tinny_eq
    else .nes_eq
  | _ => .nes_eq

/-- The function `update_audio_mode`. -/
def update_audio_mode (env : GetVariable) (g : Globals) : Globals × List Call :=
  if g.use_silent_buffer then
    ({ g with current_buffer := some .silent_buffer },
      [Call.set_sample_rate 44100 .silent_buffer])
  else
    let mode := select_audio_buffer env g
    (mode.1, mode.2 ++ [Call.set_equalizer (select_equalizer env)])

/-! ## Option handling -/

/-- The block of `check_variables` for `quicknes_no_sprite_limit`, given the host's
answer: the call it makes to the core. -/
def check_sprite_limit (r : Bool × Option String) : List Call :=
  match r with
  | (true, some value) =>
    [Call.set_sprite_mode (if value = "enabled" then .sprites_enhanced else .sprites_visible)]
  | _ => []

/-- The block of `check_variables` for `quicknes_aspect_ratio_par`, given the host's
answer, on the file-scope variables and the local `video_changed`. -/
def check_aspect_ratio (r : Bool × Option String) (s : Globals × Bool) : Globals × Bool :=
  match r with
  | (true, some value) =>
    let newval : Bool := decide (value = "PAR")
    if newval ≠ s.1.aspect_ratio_par then ({ s.1 with aspect_ratio_par := newval }, true)
    else s
  | _ => s

/-- The block of `check_variables` for `quicknes_up_down_allowed`, given the host's
answer. -/
def check_up_down (r : Bool × Option String) (s : Globals × Bool) : Globals × Bool :=
  match r with
  | (true, some value) => ({ s.1 with up_down_allowed := decide (value = "enabled") }, s.2)
  | _ => ({ s.1 with up_down_allowed := false }, s.2)

/-- The block of `check_variables` for `quicknes_use_overscan_h`, given the host's
answer. -/
def check_overscan_h (r : Bool × Option String) (s : Globals × Bool) : Globals × Bool :=
  match r with
  | (true, some value) =>
    let newval : Bool := decide (value = "enabled")
    if newval ≠ s.1.use_overscan_h then ({ s.1 with use_overscan_h := newval }, true)
    else s
  | _ => s

/-- The block of `check_variables` for `quicknes_use_overscan_v`, given the host's
answer. -/
def check_overscan_v (r : Bool × Option String) (s : Globals × Bool) : Globals × Bool :=
  match r with
  | (true, some value) =>
    let newval : Bool := decide (value = "enabled")
    if newval ≠ s.1.use_overscan_v then ({ s.1 with use_overscan_v := newval }, true)
    else s
  | _ => s

/-- The function `check_variables` (non-PSP build).  `var.value` is cleared before the
first and the third query only, so the other queries start from the value the previous
one left.  The second component of the state threaded through the blocks is the local
`video_changed`. -/
def check_variables (env : GetVariable) (g : Globals) : Globals × List Call :=
  -- struct retro_variable var = {0}; bool video_changed = false;
  let r1 := env "quicknes_no_sprite_limit" none
  let c1 := check_sprite_limit r1
  let r2 := env "quicknes_aspect_ratio_par" r1.2
  let s2 := check_aspect_ratio r2 (g, false)
  -- var.value = NULL;
  let r3 := env "quicknes_up_down_allowed" none
  let s3 := check_up_down r3 s2
  let r4 := env "quicknes_use_overscan_h" r3.2
  let s4 := check_overscan_h r4 s3
  let r5 := env "quicknes_use_overscan_v" r4.2
  let s5 := check_overscan_v r5 s4
  let a := update_audio_mode env s5.1
  -- if (video_changed) { retro_get_system_av_info(&info); environ_cb(SET_GEOMETRY, &info); }
  (a.1, c1 ++ a.2 ++
    (if s5.2 then [Call.set_geometry (retro_get_system_av_info a.1)] else []))

/-! ## Input merging -/

/-- The joypad button identifiers `RETRO_DEVICE_ID_JOYPAD_*` that `bindmap` refers to. -/
inductive JoypadId
  | A
  | B
  | SELECT
  | START
  | UP
  | DOWN
  | LEFT
  | RIGHT
  deriving DecidableEq, Repr

/-- The macro `JOY_A`. -/
def JOY_A : Nat := 1
/-- The macro `JOY_B`. -/
def JOY_B : Nat := 2
/-- The macro `JOY_SELECT`. -/
def JOY_SELECT : Nat := 4
/-- The macro `JOY_START`. -/
def JOY_START : Nat := 8
/-- The macro `JOY_UP`. -/
def JOY_UP : Nat := 0x10
/-- The macro `JOY_DOWN`. -/
def JOY_DOWN : Nat := 0x20
/-- The macro `JOY_LEFT`. -/
def JOY_LEFT : Nat := 0x40
/-- The macro `JOY_RIGHT`. -/
def JOY_RIGHT : Nat := 0x80

/-- The struct `keymap`. -/
structure keymap where
  retro : JoypadId
  nes : Nat
  deriving DecidableEq, Repr

/-- The table `bindmap`. -/
def bindmap : List keymap :=
  [ ⟨.A, JOY_A⟩, ⟨.B, JOY_B⟩, ⟨.SELECT, JOY_SELECT⟩, ⟨.START, JOY_START⟩,
    ⟨.UP, JOY_UP⟩, ⟨.DOWN, JOY_DOWN⟩, ⟨.LEFT, JOY_LEFT⟩, ⟨.RIGHT, JOY_RIGHT⟩ ]

/-- The host callback `input_state_cb(port, RETRO_DEVICE_JOYPAD, 0, id)`, an `int16_t`. -/
abbrev InputState := Nat → JoypadId → Int

/-- The operator `~` on a 32-bit `int`, as a bit pattern. -/
def complement32 (x : Nat) : Nat := 0xFFFFFFFF ^^^ x

/-- First half of `update_input`: both pads are cleared and, per port, the bits of the
pressed buttons of `bindmap` are or-ed in. -/
def merge_inputs (input_state_cb : InputState) (pads : Mem Nat) : Option (Mem Nat) :=
  -- pads[0] = pads[1] = 0;
  ((pads.write 1 0).bind fun a => a.write 0 0).bind fun pads0 =>
  for_loop 2 (fun p pads1 =>
    for_loop bindmap.length (fun bind pads2 =>
      (bindmap.get? bind).bind fun k =>
      (pads2.read p).bind fun v =>
      pads2.write p (v ||| (if input_state_cb p k.retro ≠ 0 then k.nes else 0))) pads1) pads0

/-- Body of the loop over the ports in the block guarded by `if (!up_down_allowed)`. -/
def resolve_port (p : Nat) (pads : Mem Nat) : Option (Mem Nat) :=
  (pads.read p).bind fun v =>
  (if v &&& JOY_UP ≠ 0 then
    if v &&& JOY_DOWN ≠ 0 then pads.write p (v &&& complement32 (JOY_UP ||| JOY_DOWN))
    else some pads
   else some pads).bind fun pads1 =>
  (pads1.read p).bind fun w =>
  if w &&& JOY_LEFT ≠ 0 then
    if w &&& JOY_RIGHT ≠ 0 then pads1.write p (w &&& complement32 (JOY_LEFT ||| JOY_RIGHT))
    else some pads1
  else some pads1

/-- Second half of `update_input`: the block guarded by `if (!up_down_allowed)`. -/
def resolve_conflicts (up_down_allowed : Bool) (pads : Mem Nat) : Option (Mem Nat) :=
  if !up_down_allowed then for_loop 2 resolve_port pads else some pads

/-- The function `update_input` on the caller's array `int pads[2]`; `input_poll_cb()` is
called once, after the pads are cleared. -/
def update_input (g : Globals) (input_state_cb : InputState) (pads : Mem Nat) :
    Option (Mem Nat) :=
  (merge_inputs input_state_cb pads).bind (resolve_conflicts g.up_down_allowed)

/-! ## Video conversion -/

/-- The constant `videoBufferWidth`. -/
def videoBufferWidth : Nat := Nes_Emu.image_width + 16

/-- The constant `videoBufferHeight`. -/
def videoBufferHeight : Nat := Nes_Emu.image_height + 2

/-- Modelled from the spec: the colour type `Nes_Emu::rgb_t`, declared in `Nes_Emu.h` (not
among the sources): an RGB colour with three 8-bit channels. -/
structure rgb_t where
  red : Fin 256
  green : Fin 256
  blue : Fin 256
  deriving DecidableEq, Repr

/-- Modelled from the spec: the parts of `Nes_Emu::frame_t` (declared in `Nes_Emu.h`, not
among the sources) that `retro_run` reads: the contents of the indexed pixel plane, taken
from the start of the plane registered with `set_pixels`, and the palette index table. -/
structure frame_t where
  pixels : Nat → Fin 256
  palette : Nat → Nat

/-- The pixel plane of a frame as the array `uint8_t video_buffer[videoBufferWidth *
videoBufferHeight]` that `retro_load_game` hands to `emu->set_pixels`. -/
def frame_t.plane (frame : frame_t) : Mem (Fin 256) :=
  ⟨videoBufferWidth * videoBufferHeight, frame.pixels⟩

/-- The value stored in a `retro_palette` entry for a colour: the 5-6-5 packing, kept in
a `uint16_t`. -/
def rgb565 (rgb : rgb_t) : Nat :=
  ((((rgb.red : Nat) &&& 0xf8) <<< 8) ||| (((rgb.green : Nat) &&& 0xfc) <<< 3) |||
    (((rgb.blue : Nat) &&& 0xf8) >>> 3)) % 2 ^ 16

/-- The loop of `retro_run` that fills `retro_palette`. -/
def fill_palette (nes_colors : Nat → rgb_t) (frame : frame_t) (retro_palette : Mem Nat) :
    Option (Mem Nat) :=
  for_loop 256 (fun i pal => pal.write i (rgb565 (nes_colors (frame.palette i)))) retro_palette

/-- The double loop of `retro_run` that fills `video_buffer` from the pixel plane. -/
def fill_video_buffer (frame : frame_t) (retro_palette : Mem Nat) (video_buffer : Mem Nat) :
    Option (Mem Nat) :=
  for_loop Nes_Emu.image_height (fun y vb =>
    -- out_scanline = video_buffer + image_width * y; in_scanline = pixels + videoBufferWidth * y
    for_loop Nes_Emu.image_width (fun x vb1 =>
      (frame.plane.read (videoBufferWidth * y + x)).bind fun px =>
      (retro_palette.read px).bind fun c =>
      vb1.write (Nes_Emu.image_width * y + x) c) vb) video_buffer

/-- The element offset added to `video_buffer` in the call of `video_cb`. -/
def video_offset (g : Globals) : Nat :=
  if g.use_overscan_v then (if g.use_overscan_h then 0 else 8)
  else ((if g.use_overscan_h then 0 else 8) + 256 * 8)

/-- The non-PSP video path of `retro_run` after `emulate_frame`: the static arrays
`video_buffer` and `retro_palette` start with the contents `vb0` and `pal0` left by the
previous frame; the result is the `video_cb` call, the pitch being in bytes
(`sizeof(uint16_t)` is 2). -/
def retro_run_video (g : Globals) (nes_colors : Nat → rgb_t) (frame : frame_t)
    (vb0 pal0 : Nat → Nat) : Option Call :=
  (fill_palette nes_colors frame ⟨256, pal0⟩).bind fun pal =>
  (fill_video_buffer frame pal ⟨Nes_Emu.image_width * Nes_Emu.image_height, vb0⟩).bind fun vb =>
  some (Call.video_cb vb (video_offset g)
    (Nes_Emu.image_width - (if g.use_overscan_h then 0 else 16))
    (Nes_Emu.image_height - (if g.use_overscan_v then 0 else 16))
    (Nes_Emu.image_width * 2))

/-! ## Audio shaping -/

/-- The audio-enabled path of `retro_run`: `samples` holds what
`emu->read_samples(samples, 2048)` produced and `read_samples` is its return value;
`out0` is the indeterminate initial content of `out_samples`. -/
def retro_run_audio (g : Globals) (samples : Nat → Int) (read_samples : Nat)
    (out0 : Nat → Int) : Option Call :=
  let samples_arr : Mem Int := ⟨2048, samples⟩
  let out_samples : Mem Int := ⟨4096, out0⟩
  if g.current_buffer ≠ some .effects_buffer then
    (for_loop read_samples (fun i out =>
      -- out_samples[(i << 1)] = out_samples[(i << 1) + 1] = samples[i];
      (samples_arr.read i).bind fun v =>
      (out.write ((i <<< 1) + 1) v).bind fun out1 =>
      out1.write (i <<< 1) v) out_samples).bind fun out =>
    some (Call.audio_batch_cb out read_samples)
  else
    some (Call.audio_batch_cb samples_arr (read_samples >>> 1))

/-! ## The frame pump -/

/-- What the host answers during one `retro_run`:
`variable_update` is the result of `RETRO_ENVIRONMENT_GET_VARIABLE_UPDATE` and the value
of `updated` afterwards, `audio_video_enable` the result of
`RETRO_ENVIRONMENT_GET_AUDIO_VIDEO_ENABLE` and the value of `flags` afterwards. -/
structure FrameHost where
  variable_update : Bool × Bool
  get_variable : GetVariable
  audio_video_enable : Bool × Nat
  input_state_cb : InputState

/-- What the emulation core produces during one `retro_run`, as a function of the two
joypad masks it is stepped with, and the previous contents of the arrays `retro_run`
writes (`video_buffer`, `retro_palette`, `out_samples`). -/
structure FrameCore where
  nes_colors : Nat → rgb_t
  frame : Nat → Nat → frame_t
  samples : Nat → Nat → Nat → Int
  read_samples : Nat → Nat → Nat
  vb0 : Nat → Nat
  pal0 : Nat → Nat
  out0 : Nat → Int

/-- The flag `hardDisableAudio` of `retro_run`. -/
def hardDisableAudio (host : FrameHost) : Bool :=
  if host.audio_video_enable.1 then decide (host.audio_video_enable.2 &&& 8 ≠ 0) else false

/-- The flag `videoDisabledForThisFrame` of `retro_run`. -/
def videoDisabledForThisFrame (host : FrameHost) : Bool :=
  if host.audio_video_enable.1 then decide (host.audio_video_enable.2 &&& 1 = 0) else false

/-- The flag `audioDisabledForThisFrame` of `retro_run`. -/
def audioDisabledForThisFrame (host : FrameHost) : Bool :=
  if host.audio_video_enable.1 then decide (host.audio_video_enable.2 &&& 2 = 0) else false

/-- The configuration part of `retro_run`, up to and including the update of
`use_silent_buffer`; nothing after it in `retro_run` writes a file-scope variable. -/
def retro_run_config (host : FrameHost) (g : Globals) : Globals × List Call :=
  -- if (environ_cb(RETRO_ENVIRONMENT_GET_VARIABLE_UPDATE, &updated) && updated)
  let s1 : Globals × List Call :=
    if host.variable_update.1 && host.variable_update.2 then check_variables host.get_variable g
    else (g, [])
  if hardDisableAudio host ≠ s1.1.use_silent_buffer then
    let u := update_audio_mode host.get_variable
      { s1.1 with use_silent_buffer := hardDisableAudio host }
    (u.1, s1.2 ++ u.2)
  else s1

/-- The function `retro_run` (non-PSP build). -/
def retro_run (host : FrameHost) (core : FrameCore) (g : Globals) :
    Option (Globals × List Call) :=
  let s := retro_run_config host g
  -- int pads[2] = {0};
  (update_input s.1 host.input_state_cb ⟨2, fun _ => 0⟩).bind fun pads =>
  let p0 := pads.data 0
  let p1 := pads.data 1
  (if !videoDisabledForThisFrame host then
    (retro_run_video s.1 core.nes_colors (core.frame p0 p1) core.vb0 core.pal0).bind fun c =>
      some [Call.emulate_frame p0 p1, c]
   else some [Call.emulate_skip_frame p0 p1]).bind fun video =>
  (if !audioDisabledForThisFrame host then
    (retro_run_audio s.1 (core.samples p0 p1) (core.read_samples p0 p1) core.out0).bind fun c =>
      some [Call.read_samples false, c]
   else some [Call.read_samples true]).bind fun audio =>
  some (s.1, s.2 ++ [Call.input_poll] ++ video ++ audio)

/-- What the host and the core answer during `retro_load_game`: whether
`RETRO_ENVIRONMENT_SET_PIXEL_FORMAT` is accepted, the option values, and whether
`emu->load_ines` reports an error. -/
structure LoadHost where
  set_pixel_format : Bool
  get_variable : GetVariable
  load_ines_error : Bool

/-- The function `retro_load_game`: its return value, the file-scope variables afterwards
and the recorded calls (descriptor and memory-map publication, `set_palette_range` and
`set_pixels` are not recorded). -/
def retro_load_game (host : LoadHost) (g : Globals) : Bool × Globals × List Call :=
  if !host.set_pixel_format then (false, g, [])
  else
    let c := check_variables host.get_variable g
    let u := update_audio_mode host.get_variable c.1
    (!host.load_ines_error, u.1, c.2 ++ u.2)

/-- The strategy in `current_buffer` when each frame of a run of `retro_run` calls reads
its audio samples. -/
def audio_strategy_trace (g : Globals) : List FrameHost → List (Option Multi_Buffer)
  | [] => []
  | host :: rest =>
    let g1 := (retro_run_config host g).1
    g1.current_buffer :: audio_strategy_trace g1 rest

/-! ## Memory regions -/

/-- The memory identifiers `RETRO_MEMORY_SAVE_RAM` and `RETRO_MEMORY_SYSTEM_RAM`, declared
in `libretro.h` (not among the sources): two different `case` labels of one `switch`. -/
structure MemoryIds where
  RETRO_MEMORY_SAVE_RAM : Nat
  RETRO_MEMORY_SYSTEM_RAM : Nat
  distinct : RETRO_MEMORY_SAVE_RAM ≠ RETRO_MEMORY_SYSTEM_RAM

/-- What `retro_get_memory_data` and `retro_get_memory_size` read of the emulation core:
whether the loaded cartridge has battery RAM, and the constants `Nes_Emu::low_mem_size`
and `Nes_Emu::high_mem_size` (declared in `Nes_Emu.h`, not among the sources). -/
structure Nes_Emu where
  has_battery_ram : Bool
  low_mem_size : Nat
  high_mem_size : Nat
  deriving DecidableEq, Repr

/-- The two non-null pointers `emu->low_mem()` and `emu->high_mem()`. -/
inductive Region
  | low_mem
  | high_mem
  deriving DecidableEq, Repr

/-- The function `retro_get_memory_data`: the pointer returned (`none` is `NULL`) and
the core afterwards. -/
def retro_get_memory_data (ids : MemoryIds) (emu : Nes_Emu) (id : Nat) :
    Option Region × Nes_Emu :=
  if id = ids.RETRO_MEMORY_SAVE_RAM then
    if emu.has_battery_ram then (some .high_mem, emu) else (none, emu)
  else if id = ids.RETRO_MEMORY_SYSTEM_RAM then (some .low_mem, emu)
  else (none, emu)

/-- The function `retro_get_memory_size`: the size returned and the core afterwards. -/
def retro_get_memory_size (ids : MemoryIds) (emu : Nes_Emu) (id : Nat) : Nat × Nes_Emu :=
  if id = ids.RETRO_MEMORY_SAVE_RAM then
    if emu.has_battery_ram then (emu.high_mem_size, emu) else (0, emu)
  else if id = ids.RETRO_MEMORY_SYSTEM_RAM then (emu.low_mem_size, emu)
  else (0, emu)

/-! ## Auxiliary definitions used by the proofs -/

/-- The merged mask of a port written as one fold over `bindmap`. -/
def merged_mask (cb : InputState) (p : Nat) : Nat :=
  bindmap.foldl (fun v k => v ||| (if cb p k.retro ≠ 0 then k.nes else 0)) 0

/-- The value `resolve_port` leaves in a pad that held `m`. -/
def clear_pairs (m : Nat) : Nat :=
  let v :=
    if m &&& JOY_UP ≠ 0 ∧ m &&& JOY_DOWN ≠ 0 then m &&& complement32 (JOY_UP ||| JOY_DOWN)
    else m
  if v &&& JOY_LEFT ≠ 0 ∧ v &&& JOY_RIGHT ≠ 0 then v &&& complement32 (JOY_LEFT ||| JOY_RIGHT)
  else v

/-- A host that answers no option query. -/
def host_without_options : GetVariable := fun _ _ => (false, none)

/-- A host that reports the same value for every option. -/
def host_reporting (value : String) : GetVariable := fun _ _ => (true, some value)

/-- File-scope variables with the silent buffer active and `use_silent_buffer` set. -/
def globals_silent : Globals :=
  { aspect_ratio_par := false, use_overscan_v := false, use_overscan_h := false,
    up_down_allowed := false, current_buffer := some .silent_buffer,
    use_silent_buffer := true }

/-- File-scope variables as they are when the library is loaded: the flags are
zero-initialised and `current_buffer` is `NULL`. -/
def globals_initial : Globals :=
  { aspect_ratio_par := false, use_overscan_v := false, use_overscan_h := false,
    up_down_allowed := false, current_buffer := none, use_silent_buffer := false }

/-- The buffer `update_audio_mode` resolves to when `use_silent_buffer` is false. -/
def resolved_buffer (env : GetVariable) : Multi_Buffer :=
  match env "quicknes_audio_nonlinear" none with
  | (true, some value) =>
    if value = "nonlinear" then .nes_buffer
    else if value = "stereo panning" then .effects_buffer
    else .mono_buffer
  | _ => .nes_buffer

/-- The video flags of two states agree. -/
def same_video_flags (a b : Globals) : Prop :=
  a.aspect_ratio_par = b.aspect_ratio_par ∧ a.use_overscan_h = b.use_overscan_h ∧
    a.use_overscan_v = b.use_overscan_v

/-- The active strategy agrees with `use_silent_buffer`: the silent buffer when it is set,
one of the three other buffers when it is clear. -/
def strategy_matches_flag (g : Globals) : Prop :=
  (g.use_silent_buffer = true → g.current_buffer = some .silent_buffer) ∧
  (g.use_silent_buffer = false →
    g.current_buffer = some .mono_buffer ∨ g.current_buffer = some .nes_buffer ∨
      g.current_buffer = some .effects_buffer)

/-- A host that accepts the pixel format, answers no option query, and a cartridge that
loads. -/
def load_host_plain : LoadHost :=
  { set_pixel_format := true, get_variable := host_without_options, load_ines_error := false }

/-- A frame in which the host reports no option update, sets all of the audio/video
enable flags including hard-disable-audio (value 15) and presses no button. -/
def frame_host_hard_muted : FrameHost :=
  { variable_update := (true, false), get_variable := host_without_options,
    audio_video_enable := (true, 15), input_state_cb := fun _ _ => 0 }

/-- Three samples followed by zeros. -/
def samples_example : Nat → Int := fun i => if i = 0 then 5 else if i = 1 then -7 else if i = 2 then 9 else 0

/-- A core with a battery-backed cartridge, 2 KiB of system RAM and 8 KiB of save RAM. -/
def emu_example : Nes_Emu :=
  { has_battery_ram := true, low_mem_size := 0x800, high_mem_size := 0x2000 }

/-- The memory identifiers with the values 0 and 2. -/
def ids_example : MemoryIds :=
  { RETRO_MEMORY_SAVE_RAM := 0, RETRO_MEMORY_SYSTEM_RAM := 2, distinct := by decide }

/-- A host callback that reports as pressed exactly the buttons whose bit is set in `m`. -/
def buttons_of_mask (m : Nat) : InputState :=
  fun _ id =>
    match id with
    | .A => if m &&& JOY_A ≠ 0 then 1 else 0
    | .B => if m &&& JOY_B ≠ 0 then 1 else 0
    | .SELECT => if m &&& JOY_SELECT ≠ 0 then 1 else 0
    | .START => if m &&& JOY_START ≠ 0 then 1 else 0
    | .UP => if m &&& JOY_UP ≠ 0 then 1 else 0
    | .DOWN => if m &&& JOY_DOWN ≠ 0 then 1 else 0
    | .LEFT => if m &&& JOY_LEFT ≠ 0 then 1 else 0
    | .RIGHT => if m &&& JOY_RIGHT ≠ 0 then 1 else 0

/-! ## Loop and array lemmas -/

theorem for_loop_succ {σ : Type} (k : Nat) (body : Nat → σ → Option σ) (s : σ) :
    for_loop (k + 1) body s = (for_loop k body s).bind (body k) := rfl

theorem merge_inputs_eq (cb : InputState) (d : Nat → Nat) :
    merge_inputs cb ⟨2, d⟩ = some ⟨2, fun j => if j = 0 then merged_mask cb 0 else if j = 1 then merged_mask cb 1 else d j⟩ := by
  simp [merge_inputs, Mem.write, Mem.read, for_loop, bindmap, merged_mask]
  funext j
  by_cases h0 : j = 0
  · subst h0; simp
  · by_cases h1 : j = 1
    · subst h1; simp
    · simp [h0, h1]

theorem Mem.read_mk {α : Type} (n : Nat) (d : Nat → α) (i : Nat) (h : i < n) :
    Mem.read ⟨n, d⟩ i = some (d i) := by
  simp [Mem.read, h]

theorem Mem.write_mk {α : Type} (n : Nat) (d : Nat → α) (i : Nat) (v : α) (h : i < n) :
    Mem.write ⟨n, d⟩ i v = some ⟨n, fun j => if j = i then v else d j⟩ := by
  simp [Mem.write, h]

theorem cond_write (n p : Nat) (hp : p < n) (d : Nat → Nat) (a b : Prop) [Decidable a]
    [Decidable b] (v : Nat) :
    (if a then (if b then Mem.write ⟨n, d⟩ p v else some ⟨n, d⟩) else some ⟨n, d⟩) =
      some ⟨n, fun j => if j = p then (if a ∧ b then v else d p) else d j⟩ := by
  have self : (fun j => if j = p then d p else d j) = d := by
    funext j; split
    · next h => rw [h]
    · rfl
  by_cases ha : a <;> by_cases hb : b <;> simp [ha, hb, Mem.write_mk n d p v hp, self]

theorem resolve_port_eq (p : Nat) (hp : p < 2) (d : Nat → Nat) :
    resolve_port p ⟨2, d⟩ = some ⟨2, fun j => if j = p then clear_pairs (d p) else d j⟩ := by
  unfold resolve_port
  rw [Mem.read_mk 2 d p hp, Option.some_bind, cond_write 2 p hp, Option.some_bind,
    Mem.read_mk 2 _ p hp, Option.some_bind, cond_write 2 p hp]
  congr 2
  funext j
  by_cases hj : j = p
  · simp [hj, clear_pairs]
  · simp [hj]

theorem resolve_conflicts_eq (allowed : Bool) (d : Nat → Nat) :
    resolve_conflicts allowed ⟨2, d⟩ = some ⟨2, fun j =>
      if j < 2 then (if allowed then d j else clear_pairs (d j)) else d j⟩ := by
  cases allowed
  · simp only [resolve_conflicts, for_loop,  Bool.not_false, if_true, Option.some_bind, Option.bind]
    rw [resolve_port_eq 0 (by decide)]
    simp only []
    rw [resolve_port_eq 1 (by decide)]
    congr 2
    funext j
    by_cases h0 : j = 0
    · subst h0; simp
    · by_cases h1 : j = 1
      · subst h1; simp
      · have : ¬ j < 2 := by omega
        simp [h0, h1, this]
  · simp [resolve_conflicts]

theorem merged_mask_lt (cb : InputState) (p : Nat) : merged_mask cb p < 256 := by
  have key : ∀ (c : Prop) [Decidable c] (a k : Nat), a < 2 ^ 8 → k < 2 ^ 8 →
      a ||| (if c then k else 0) < 2 ^ 8 := by
    intro c _ a k ha hk
    apply Nat.or_lt_two_pow ha
    split
    · exact hk
    · exact Nat.two_pow_pos 8
  simp only [merged_mask, bindmap, List.foldl]
  repeat (first | apply key | decide)

set_option maxRecDepth 100000 in
theorem clear_pairs_spec : ∀ m, m < 256 →
    clear_pairs m ≤ m ∧
    (if m &&& JOY_UP ≠ 0 ∧ m &&& JOY_DOWN ≠ 0
      then clear_pairs m &&& JOY_UP = 0 ∧ clear_pairs m &&& JOY_DOWN = 0
      else clear_pairs m &&& JOY_UP = m &&& JOY_UP ∧
        clear_pairs m &&& JOY_DOWN = m &&& JOY_DOWN) ∧
    (if m &&& JOY_LEFT ≠ 0 ∧ m &&& JOY_RIGHT ≠ 0
      then clear_pairs m &&& JOY_LEFT = 0 ∧ clear_pairs m &&& JOY_RIGHT = 0
      else clear_pairs m &&& JOY_LEFT = m &&& JOY_LEFT ∧
        clear_pairs m &&& JOY_RIGHT = m &&& JOY_RIGHT) ∧
    ∀ i, i < 4 → (clear_pairs m).testBit i = m.testBit i := by
  decide

set_option maxRecDepth 100000 in
/-- Every 8-bit mask is the merged mask of some host answer. -/
theorem merged_mask_surjective : ∀ m, m < 256 → ∀ p, p < 2 →
    merged_mask (buttons_of_mask m) p = m := by
  decide

theorem clear_pairs_high (m : Nat) (hm : m < 256) (i : Nat) (hi : 8 ≤ i) :
    (clear_pairs m).testBit i = m.testBit i := by
  have hle := (clear_pairs_spec m hm).1
  have hpow : 256 ≤ 2 ^ i := by
    calc 256 = 2 ^ 8 := by norm_num
      _ ≤ 2 ^ i := Nat.pow_le_pow_right (by norm_num) hi
  rw [Nat.testBit_lt_two_pow (by omega), Nat.testBit_lt_two_pow (by omega)]

theorem update_input_eq (g : Globals) (cb : InputState) (d : Nat → Nat) :
    update_input g cb ⟨2, d⟩ = some ⟨2, fun j =>
      if j < 2 then
        (if g.up_down_allowed then
          (if j = 0 then merged_mask cb 0 else if j = 1 then merged_mask cb 1 else d j)
         else clear_pairs
          (if j = 0 then merged_mask cb 0 else if j = 1 then merged_mask cb 1 else d j))
      else (if j = 0 then merged_mask cb 0 else if j = 1 then merged_mask cb 1 else d j)⟩ := by
  rw [update_input, merge_inputs_eq, Option.some_bind]
  exact resolve_conflicts_eq g.up_down_allowed _

/-- C1: whatever the host reports for the buttons, `update_input` produces for each of the
two ports the merged 8-bit mask `m` of the pressed buttons, unchanged when
`up_down_allowed` is true; when it is false, Up and Down are both cleared exactly when
both were set in `m` and keep their value otherwise, likewise Left and Right, and every
other bit keeps its value. -/
theorem update_input_conflict_policy (g : Globals) (cb : InputState) (d : Nat → Nat) :
    ∃ merged out : Mem Nat,
      merge_inputs cb ⟨2, d⟩ = some merged ∧
      update_input g cb ⟨2, d⟩ = some out ∧
      ∀ p, p < 2 →
        merged.data p < 256 ∧
        (g.up_down_allowed = true → out.data p = merged.data p) ∧
        (g.up_down_allowed = false →
          (merged.data p &&& JOY_UP ≠ 0 ∧ merged.data p &&& JOY_DOWN ≠ 0 →
            out.data p &&& JOY_UP = 0 ∧ out.data p &&& JOY_DOWN = 0) ∧
          (¬(merged.data p &&& JOY_UP ≠ 0 ∧ merged.data p &&& JOY_DOWN ≠ 0) →
            out.data p &&& JOY_UP = merged.data p &&& JOY_UP ∧
            out.data p &&& JOY_DOWN = merged.data p &&& JOY_DOWN) ∧
          (merged.data p &&& JOY_LEFT ≠ 0 ∧ merged.data p &&& JOY_RIGHT ≠ 0 →
            out.data p &&& JOY_LEFT = 0 ∧ out.data p &&& JOY_RIGHT = 0) ∧
          (¬(merged.data p &&& JOY_LEFT ≠ 0 ∧ merged.data p &&& JOY_RIGHT ≠ 0) →
            out.data p &&& JOY_LEFT = merged.data p &&& JOY_LEFT ∧
            out.data p &&& JOY_RIGHT = merged.data p &&& JOY_RIGHT) ∧
          ∀ i, i ≠ 4 → i ≠ 5 → i ≠ 6 → i ≠ 7 →
            (out.data p).testBit i = (merged.data p).testBit i) := by
  refine ⟨_, _, merge_inputs_eq cb d, update_input_eq g cb d, ?_⟩
  · intro p hp
    have hm : (if p = 0 then merged_mask cb 0 else if p = 1 then merged_mask cb 1 else d p)
        = merged_mask cb p := by
      rcases (by omega : p = 0 ∨ p = 1) with h | h <;> subst h <;> simp
    simp only [hp, if_true, hm]
    have hlt := merged_mask_lt cb p
    obtain ⟨_, hud, hlr, hlow⟩ := clear_pairs_spec _ hlt
    refine ⟨hlt, ?_, ?_⟩
    · intro h; simp [h]
    · intro h
      simp only [h, Bool.false_eq_true, if_false]
      refine ⟨fun hc => ?_, fun hc => ?_, fun hc => ?_, fun hc => ?_, ?_⟩
      · rw [if_pos hc] at hud; exact hud
      · rw [if_neg hc] at hud; exact hud
      · rw [if_pos hc] at hlr; exact hlr
      · rw [if_neg hc] at hlr; exact hlr
      · intro i h4 h5 h6 h7
        by_cases hi : i < 4
        · exact hlow i hi
        · exact clear_pairs_high _ hlt i (by omega)

/-! ## Audio buffer selection -/

theorem update_audio_mode_silent (env : GetVariable) (g : Globals)
    (h : g.use_silent_buffer = true) :
    update_audio_mode env g =
      ({ g with current_buffer := some .silent_buffer },
        [Call.set_sample_rate 44100 .silent_buffer]) := by
  simp [update_audio_mode, h]

/-- The buffer `update_audio_mode` selects when `use_silent_buffer` is false. -/
theorem update_audio_mode_buffer (env : GetVariable) (g : Globals)
    (h : g.use_silent_buffer = false) :
    (update_audio_mode env g).1.current_buffer = some (resolved_buffer env) := by
  simp only [update_audio_mode, select_audio_buffer, resolved_buffer, h, Bool.false_eq_true,
    if_false]
  rcases env "quicknes_audio_nonlinear" none with ⟨_ | _, _ | v⟩ <;> simp only []
  all_goals (repeat' split) <;> simp_all

/-- Only `current_buffer` is written by `update_audio_mode`. -/
theorem update_audio_mode_fields (env : GetVariable) (g : Globals) :
    (update_audio_mode env g).1 =
      { g with current_buffer := (update_audio_mode env g).1.current_buffer } := by
  obtain ⟨par, ov, oh, ud, cur, sil⟩ := g
  cases sil
  · simp only [update_audio_mode, select_audio_buffer, Bool.false_eq_true, if_false]
    rcases env "quicknes_audio_nonlinear" none with ⟨_ | _, _ | v⟩ <;> simp only []
    all_goals (repeat' split) <;> simp_all
  · simp [update_audio_mode]

/-- The `set_sample_rate` calls of `update_audio_mode` when `use_silent_buffer` is false:
one call, for the new buffer, when the buffer changes, and none otherwise. -/
theorem update_audio_mode_rate_calls (env : GetVariable) (g : Globals)
    (h : g.use_silent_buffer = false) :
    (update_audio_mode env g).2.filter Call.isSetSampleRate =
      if (update_audio_mode env g).1.current_buffer = g.current_buffer then []
      else match (update_audio_mode env g).1.current_buffer with
        | some b => [Call.set_sample_rate 44100 b]
        | none => [] := by
  simp only [update_audio_mode, select_audio_buffer, h, Bool.false_eq_true, if_false]
  rcases env "quicknes_audio_nonlinear" none with ⟨_ | _, _ | v⟩ <;> simp only []
  all_goals (repeat' split) <;> simp_all [Call.isSetSampleRate, List.filter]

/-- No geometry is published by `update_audio_mode`. -/
theorem update_audio_mode_no_geometry (env : GetVariable) (g : Globals) :
    (update_audio_mode env g).2.filter Call.isSetGeometry = [] := by
  by_cases h : g.use_silent_buffer = true
  · simp [update_audio_mode, h, Call.isSetGeometry]
  · simp only [update_audio_mode, select_audio_buffer, h, if_false]
    rcases env "quicknes_audio_nonlinear" none with ⟨_ | _, _ | v⟩ <;> simp only []
    all_goals (repeat' split) <;> simp_all [Call.isSetGeometry, List.filter]

/-- C2, as stated, fails: with the silent buffer active and `use_silent_buffer` set,
`update_audio_mode` leaves the active strategy as it was and calls `set_sample_rate` all
the same, and so does a second call right after it. -/
theorem silent_mode_rebinds_unchanged_strategy :
    (update_audio_mode host_without_options globals_silent).1.current_buffer =
        globals_silent.current_buffer ∧
      (update_audio_mode host_without_options globals_silent).2.any Call.isSetSampleRate
        = true ∧
      (update_audio_mode host_without_options
        (update_audio_mode host_without_options globals_silent).1).2.any Call.isSetSampleRate
        = true := by
  simp [update_audio_mode, globals_silent, Call.isSetSampleRate]

/-- C2, amended: `update_audio_mode` always leaves a strategy `b` active.  With
`use_silent_buffer` set, `b` is the silent buffer and `set_sample_rate(44100, b)` is called
unconditionally.  With `use_silent_buffer` clear, `set_sample_rate(44100, b)` is called
exactly when `b` differs from the strategy active before the call and no other
`set_sample_rate` call is made, so a second call with the same host answers makes none. -/
theorem update_audio_mode_rebinding (env : GetVariable) (g : Globals) :
    ∃ b, (update_audio_mode env g).1.current_buffer = some b ∧
      (g.use_silent_buffer = true →
        b = .silent_buffer ∧
        (update_audio_mode env g).2.filter Call.isSetSampleRate =
          [Call.set_sample_rate 44100 b]) ∧
      (g.use_silent_buffer = false →
        (update_audio_mode env g).2.filter Call.isSetSampleRate =
          (if g.current_buffer = some b then [] else [Call.set_sample_rate 44100 b]) ∧
        (update_audio_mode env (update_audio_mode env g).1).2.filter Call.isSetSampleRate
          = []) := by
  by_cases h : g.use_silent_buffer = true
  · refine ⟨.silent_buffer, ?_, ?_, ?_⟩
    · rw [update_audio_mode_silent env g h]
    · intro _
      rw [update_audio_mode_silent env g h]
      exact ⟨rfl, rfl⟩
    · intro h2; rw [h] at h2; cases h2
  · have hf : g.use_silent_buffer = false := by simpa using h
    have hb := update_audio_mode_buffer env g hf
    refine ⟨resolved_buffer env, hb, ?_, ?_⟩
    · intro h2; exact absurd h2 h
    · intro _
      have hf2 : (update_audio_mode env g).1.use_silent_buffer = false := by
        rw [update_audio_mode_fields]; exact hf
      have hb2 := update_audio_mode_buffer env _ hf2
      constructor
      · rw [update_audio_mode_rate_calls env g hf, hb]
        by_cases hc : g.current_buffer = some (resolved_buffer env)
        · rw [if_pos hc.symm, if_pos hc]
        · rw [if_neg (fun e => hc e.symm), if_neg hc]
      · rw [update_audio_mode_rate_calls env _ hf2, hb2, hb, if_pos rfl]

/-- C3, as stated, fails: with `use_silent_buffer` clear, a host that reports the
unrecognized audio mode "surround" gets the mono buffer, not `nes_buffer`. -/
theorem unrecognized_mode_selects_mono :
    (update_audio_mode (host_reporting "surround") globals_initial).1.current_buffer =
        some Multi_Buffer.mono_buffer ∧
      (update_audio_mode (host_reporting "surround") globals_initial).1.current_buffer ≠
        some Multi_Buffer.nes_buffer := by
  rw [update_audio_mode_buffer _ _ rfl]
  simp [resolved_buffer, host_reporting]

/-- C3, amended: with `use_silent_buffer` clear, the strategy active after
`update_audio_mode` is `nes_buffer` for the value "nonlinear", `effects_buffer` for
"stereo panning", `mono_buffer` for "linear" and for every other string, and `nes_buffer`
when the host supplies no value (the query fails or leaves a null value). -/
theorem update_audio_mode_strategy (env : GetVariable) (g : Globals)
    (h : g.use_silent_buffer = false) :
    (env "quicknes_audio_nonlinear" none = (true, some "nonlinear") →
      (update_audio_mode env g).1.current_buffer = some .nes_buffer) ∧
    (env "quicknes_audio_nonlinear" none = (true, some "stereo panning") →
      (update_audio_mode env g).1.current_buffer = some .effects_buffer) ∧
    (env "quicknes_audio_nonlinear" none = (true, some "linear") →
      (update_audio_mode env g).1.current_buffer = some .mono_buffer) ∧
    (∀ value, value ≠ "nonlinear" → value ≠ "stereo panning" →
      env "quicknes_audio_nonlinear" none = (true, some value) →
      (update_audio_mode env g).1.current_buffer = some .mono_buffer) ∧
    (∀ ok, env "quicknes_audio_nonlinear" none = (ok, none) →
      (update_audio_mode env g).1.current_buffer = some .nes_buffer) ∧
    (∀ value, env "quicknes_audio_nonlinear" none = (false, value) →
      (update_audio_mode env g).1.current_buffer = some .nes_buffer) := by
  rw [update_audio_mode_buffer env g h, resolved_buffer]
  refine ⟨?_, ?_, ?_, ?_, ?_, ?_⟩
  · intro e; rw [e]; simp
  · intro e; rw [e]; simp
  · intro e; rw [e]; simp
  · intro value h1 h2 e; rw [e]; simp [h1, h2]
  · intro ok e; rw [e]; cases ok <;> rfl
  · intro value e; rw [e]

/-- Witness for C3: the initial state, where `use_silent_buffer` is clear, and a host
that reports "linear". -/
theorem update_audio_mode_strategy_witness :
    globals_initial.use_silent_buffer = false ∧
      host_reporting "linear" "quicknes_audio_nonlinear" none = (true, some "linear") ∧
      (update_audio_mode (host_reporting "linear") globals_initial).1.current_buffer
        = some .mono_buffer :=
  ⟨rfl, rfl,
    (update_audio_mode_strategy (host_reporting "linear") globals_initial rfl).2.2.1 rfl⟩


/-! ## Option handling and the frame pump -/

theorem update_audio_mode_par (env : GetVariable) (g : Globals) :
    (update_audio_mode env g).1.aspect_ratio_par = g.aspect_ratio_par := by
  rw [update_audio_mode_fields]

theorem update_audio_mode_overscan_h (env : GetVariable) (g : Globals) :
    (update_audio_mode env g).1.use_overscan_h = g.use_overscan_h := by
  rw [update_audio_mode_fields]

theorem update_audio_mode_overscan_v (env : GetVariable) (g : Globals) :
    (update_audio_mode env g).1.use_overscan_v = g.use_overscan_v := by
  rw [update_audio_mode_fields]

theorem update_audio_mode_use_silent (env : GetVariable) (g : Globals) :
    (update_audio_mode env g).1.use_silent_buffer = g.use_silent_buffer := by
  rw [update_audio_mode_fields]

theorem check_aspect_ratio_spec (r : Bool × Option String) (s : Globals × Bool) :
    (check_aspect_ratio r s).1.use_overscan_h = s.1.use_overscan_h ∧
    (check_aspect_ratio r s).1.use_overscan_v = s.1.use_overscan_v ∧
    (check_aspect_ratio r s).1.current_buffer = s.1.current_buffer ∧
    (check_aspect_ratio r s).1.use_silent_buffer = s.1.use_silent_buffer ∧
    ((check_aspect_ratio r s).2 =
      (s.2 || decide ((check_aspect_ratio r s).1.aspect_ratio_par ≠ s.1.aspect_ratio_par))) := by
  obtain ⟨⟨par, ov, oh, ud, cur, sil⟩, ch⟩ := s
  rcases r with ⟨_ | _, _ | v⟩ <;> simp only [check_aspect_ratio] <;> (repeat' split) <;>
    simp_all

theorem check_up_down_spec (r : Bool × Option String) (s : Globals × Bool) :
    (check_up_down r s).1.aspect_ratio_par = s.1.aspect_ratio_par ∧
    (check_up_down r s).1.use_overscan_h = s.1.use_overscan_h ∧
    (check_up_down r s).1.use_overscan_v = s.1.use_overscan_v ∧
    (check_up_down r s).1.current_buffer = s.1.current_buffer ∧
    (check_up_down r s).1.use_silent_buffer = s.1.use_silent_buffer ∧
    (check_up_down r s).2 = s.2 := by
  rcases r with ⟨_ | _, _ | v⟩ <;> simp [check_up_down]

theorem check_overscan_h_spec (r : Bool × Option String) (s : Globals × Bool) :
    (check_overscan_h r s).1.aspect_ratio_par = s.1.aspect_ratio_par ∧
    (check_overscan_h r s).1.use_overscan_v = s.1.use_overscan_v ∧
    (check_overscan_h r s).1.current_buffer = s.1.current_buffer ∧
    (check_overscan_h r s).1.use_silent_buffer = s.1.use_silent_buffer ∧
    ((check_overscan_h r s).2 =
      (s.2 || decide ((check_overscan_h r s).1.use_overscan_h ≠ s.1.use_overscan_h))) := by
  obtain ⟨⟨par, ov, oh, ud, cur, sil⟩, ch⟩ := s
  rcases r with ⟨_ | _, _ | v⟩ <;> simp only [check_overscan_h] <;> (repeat' split) <;>
    simp_all

theorem check_overscan_v_spec (r : Bool × Option String) (s : Globals × Bool) :
    (check_overscan_v r s).1.aspect_ratio_par = s.1.aspect_ratio_par ∧
    (check_overscan_v r s).1.use_overscan_h = s.1.use_overscan_h ∧
    (check_overscan_v r s).1.current_buffer = s.1.current_buffer ∧
    (check_overscan_v r s).1.use_silent_buffer = s.1.use_silent_buffer ∧
    ((check_overscan_v r s).2 =
      (s.2 || decide ((check_overscan_v r s).1.use_overscan_v ≠ s.1.use_overscan_v))) := by
  obtain ⟨⟨par, ov, oh, ud, cur, sil⟩, ch⟩ := s
  rcases r with ⟨_ | _, _ | v⟩ <;> simp only [check_overscan_v] <;> (repeat' split) <;>
    simp_all

theorem check_sprite_limit_no_geometry (r : Bool × Option String) :
    (check_sprite_limit r).filter Call.isSetGeometry = [] := by
  rcases r with ⟨_ | _, _ | v⟩ <;> simp [check_sprite_limit, Call.isSetGeometry]

/-- The shape of `check_variables`: the option queries produce a state `g5` and a flag
`changed`, then `update_audio_mode` runs on `g5`, then geometry is published when
`changed` is set; `changed` is set exactly when a video flag of `g5` differs from `g`. -/
theorem check_variables_shape (env : GetVariable) (g : Globals) :
    ∃ (g5 : Globals) (changed : Bool) (c1 : List Call),
      check_variables env g =
        ((update_audio_mode env g5).1,
          c1 ++ (update_audio_mode env g5).2 ++
            (if changed then
              [Call.set_geometry (retro_get_system_av_info (update_audio_mode env g5).1)]
             else [])) ∧
      c1.filter Call.isSetGeometry = [] ∧
      g5.use_silent_buffer = g.use_silent_buffer ∧
      g5.current_buffer = g.current_buffer ∧
      (changed = true ↔ ¬ same_video_flags g5 g) := by
  refine ⟨_, _, _, rfl, check_sprite_limit_no_geometry _, ?_, ?_, ?_⟩
  · simp only [(check_overscan_v_spec _ _).2.2.2.1, (check_overscan_h_spec _ _).2.2.2.1,
      (check_up_down_spec _ _).2.2.2.2.1, (check_aspect_ratio_spec _ _).2.2.2.1]
  · simp only [(check_overscan_v_spec _ _).2.2.1, (check_overscan_h_spec _ _).2.2.1,
      (check_up_down_spec _ _).2.2.2.1, (check_aspect_ratio_spec _ _).2.2.1]
  · generalize env "quicknes_no_sprite_limit" none = r1
    generalize env "quicknes_aspect_ratio_par" r1.2 = r2
    generalize env "quicknes_up_down_allowed" none = r3
    generalize env "quicknes_use_overscan_h" r3.2 = r4
    generalize env "quicknes_use_overscan_v" r4.2 = r5
    have h2 := check_aspect_ratio_spec r2 (g, false)
    have h3 := check_up_down_spec r3 (check_aspect_ratio r2 (g, false))
    have h4 := check_overscan_h_spec r4 (check_up_down r3 (check_aspect_ratio r2 (g, false)))
    have h5 := check_overscan_v_spec r5
      (check_overscan_h r4 (check_up_down r3 (check_aspect_ratio r2 (g, false))))
    obtain ⟨h2h, h2v, -, -, h2c⟩ := h2
    obtain ⟨h3p, h3h, h3v, -, -, h3c⟩ := h3
    obtain ⟨h4p, h4v, -, -, h4c⟩ := h4
    obtain ⟨h5p, h5h, -, -, h5c⟩ := h5
    rw [h5c, h4c, h3c, h2c]
    simp only [same_video_flags, h5p, h5h, h4p, h4v, h3p, h3h, h3v, h2h, h2v]
    simp only [Bool.false_or, Bool.or_eq_true, decide_eq_true_eq]
    tauto

/-- C9: `check_variables` publishes geometry (`SET_GEOMETRY`) exactly once when at least
one of `aspect_ratio_par`, `use_overscan_h`, `use_overscan_v` has a different value after
the call than before it, and not at all when all three are unchanged; the geometry it
publishes is what `retro_get_system_av_info` computes from the state after the call. -/
theorem check_variables_publishes_geometry (env : GetVariable) (g : Globals) :
    (((check_variables env g).1.aspect_ratio_par, (check_variables env g).1.use_overscan_h,
        (check_variables env g).1.use_overscan_v) ≠
        (g.aspect_ratio_par, g.use_overscan_h, g.use_overscan_v) →
      (check_variables env g).2.filter Call.isSetGeometry =
        [Call.set_geometry (retro_get_system_av_info (check_variables env g).1)]) ∧
    (((check_variables env g).1.aspect_ratio_par, (check_variables env g).1.use_overscan_h,
        (check_variables env g).1.use_overscan_v) =
        (g.aspect_ratio_par, g.use_overscan_h, g.use_overscan_v) →
      (check_variables env g).2.filter Call.isSetGeometry = []) := by
  obtain ⟨g5, changed, c1, heq, hc1, -, -, hch⟩ := check_variables_shape env g
  rw [heq]
  simp only [update_audio_mode_par, update_audio_mode_overscan_h, update_audio_mode_overscan_v,
    List.filter_append, hc1, update_audio_mode_no_geometry, List.nil_append, ne_eq,
    Prod.mk.injEq]
  have hflags : (g5.aspect_ratio_par = g.aspect_ratio_par ∧
      g5.use_overscan_h = g.use_overscan_h ∧ g5.use_overscan_v = g.use_overscan_v) ↔
      same_video_flags g5 g := Iff.rfl
  rw [hflags]
  constructor
  · intro hne
    rw [hch.mpr hne]
    rfl
  · intro hsame
    have : changed = false := by
      cases changed
      · rfl
      · exact absurd hsame (hch.mp rfl)
    rw [this]
    rfl

theorem resolved_buffer_cases (env : GetVariable) :
    resolved_buffer env = .mono_buffer ∨ resolved_buffer env = .nes_buffer ∨
      resolved_buffer env = .effects_buffer := by
  unfold resolved_buffer
  rcases env "quicknes_audio_nonlinear" none with ⟨_ | _, _ | v⟩ <;> simp only []
  all_goals (repeat' split) <;> simp

/-- After `update_audio_mode` the active strategy agrees with `use_silent_buffer`. -/
theorem update_audio_mode_matches (env : GetVariable) (g : Globals) :
    strategy_matches_flag (update_audio_mode env g).1 := by
  unfold strategy_matches_flag
  rw [update_audio_mode_use_silent]
  constructor
  · intro h
    rw [update_audio_mode_silent env g h]
  · intro h
    rw [update_audio_mode_buffer env g h]
    rcases resolved_buffer_cases env with e | e | e <;> rw [e] <;> simp

theorem check_variables_matches (env : GetVariable) (g : Globals) :
    strategy_matches_flag (check_variables env g).1 ∧
      (check_variables env g).1.use_silent_buffer = g.use_silent_buffer := by
  obtain ⟨g5, changed, c1, heq, -, hs, -, -⟩ := check_variables_shape env g
  rw [heq]
  exact ⟨update_audio_mode_matches env g5, by rw [update_audio_mode_use_silent]; exact hs⟩

/-- The configuration part of `retro_run` leaves `use_silent_buffer` equal to the frame's
`hardDisableAudio` and keeps the active strategy in agreement with it. -/
theorem retro_run_config_matches (host : FrameHost) (g : Globals)
    (hg : strategy_matches_flag g) :
    strategy_matches_flag (retro_run_config host g).1 ∧
      (retro_run_config host g).1.use_silent_buffer = hardDisableAudio host := by
  unfold retro_run_config
  simp only []
  generalize hs1 : (if (host.variable_update.1 && host.variable_update.2) = true
    then check_variables host.get_variable g else (g, [])) = s1
  have hinv : strategy_matches_flag s1.1 := by
    rw [← hs1]
    split
    · exact (check_variables_matches host.get_variable g).1
    · exact hg
  by_cases hd : hardDisableAudio host ≠ s1.1.use_silent_buffer
  · rw [if_pos hd]
    exact ⟨update_audio_mode_matches _ _, by rw [update_audio_mode_use_silent]⟩
  · rw [if_neg hd]
    exact ⟨hinv, (not_not.mp hd).symm⟩

/-- A successful `retro_load_game` leaves the active strategy in agreement with
`use_silent_buffer`. -/
theorem retro_load_game_matches (host : LoadHost) (g : Globals)
    (h : (retro_load_game host g).1 = true) :
    strategy_matches_flag (retro_load_game host g).2.1 := by
  unfold retro_load_game at h ⊢
  by_cases hp : host.set_pixel_format = true
  · simp only [hp, Bool.not_true, Bool.false_eq_true, if_false]
    exact update_audio_mode_matches _ _
  · simp [hp] at h

theorem audio_strategy_trace_matches (frames : List FrameHost) :
    ∀ (g : Globals), strategy_matches_flag g →
      ∀ (i : Nat) (host : FrameHost), frames.get? i = some host →
        ∃ cur, (audio_strategy_trace g frames).get? i = some cur ∧
          (hardDisableAudio host = true → cur = some .silent_buffer) ∧
          (hardDisableAudio host = false →
            cur = some .mono_buffer ∨ cur = some .nes_buffer ∨ cur = some .effects_buffer) := by
  induction frames with
  | nil => intro g _ i host h; simp at h
  | cons f rest ih =>
    intro g hg i host h
    obtain ⟨hm, hs⟩ := retro_run_config_matches f g hg
    cases i with
    | zero =>
      simp only [List.get?_cons_zero, Option.some.injEq] at h
      subst h
      refine ⟨_, rfl, ?_, ?_⟩
      · intro hd; exact hm.1 (hs.trans hd)
      · intro hd; exact hm.2 (hs.trans hd)
    | succ j =>
      simp only [List.get?_cons_succ] at h
      exact ih _ hm j host h

/-- C4: after a successful `retro_load_game`, in every frame of any sequence of
`retro_run` calls, whatever the host answers, the strategy in `current_buffer` when the
frame reads its audio samples is the silent buffer if the host reported the
hard-disable-audio flag (the query succeeded and bit value 8 is set) for that frame, and
one of the three other buffers if the query failed or the bit is clear. -/
theorem hard_disable_selects_silent (load : LoadHost) (g0 : Globals)
    (frames : List FrameHost) (hload : (retro_load_game load g0).1 = true)
    (i : Nat) (host : FrameHost) (hi : frames.get? i = some host) :
    ∃ cur, (audio_strategy_trace (retro_load_game load g0).2.1 frames).get? i = some cur ∧
      (host.audio_video_enable.1 = true ∧ host.audio_video_enable.2 &&& 8 ≠ 0 →
        cur = some .silent_buffer) ∧
      (host.audio_video_enable.1 = false ∨ host.audio_video_enable.2 &&& 8 = 0 →
        cur = some .mono_buffer ∨ cur = some .nes_buffer ∨ cur = some .effects_buffer) := by
  obtain ⟨cur, hc, h1, h2⟩ := audio_strategy_trace_matches frames _
    (retro_load_game_matches load g0 hload) i host hi
  refine ⟨cur, hc, ?_, ?_⟩
  · rintro ⟨hok, hbit⟩
    apply h1
    simp [hardDisableAudio, hok, hbit]
  · intro h
    apply h2
    rcases h with h | h <;> simp [hardDisableAudio, h]

/-- Witness for C4: a load that succeeds followed by two frames, the second of which is
hard-muted. -/
theorem hard_disable_selects_silent_witness :
    (retro_load_game load_host_plain globals_initial).1 = true ∧
      [frame_host_hard_muted, frame_host_hard_muted].get? 1 = some frame_host_hard_muted ∧
      ∃ cur, (audio_strategy_trace (retro_load_game load_host_plain globals_initial).2.1
          [frame_host_hard_muted, frame_host_hard_muted]).get? 1 = some cur ∧
        (frame_host_hard_muted.audio_video_enable.1 = true ∧
            frame_host_hard_muted.audio_video_enable.2 &&& 8 ≠ 0 →
          cur = some .silent_buffer) ∧
        (frame_host_hard_muted.audio_video_enable.1 = false ∨
            frame_host_hard_muted.audio_video_enable.2 &&& 8 = 0 →
          cur = some .mono_buffer ∨ cur = some .nes_buffer ∨ cur = some .effects_buffer) :=
  ⟨rfl, rfl, hard_disable_selects_silent load_host_plain globals_initial
    [frame_host_hard_muted, frame_host_hard_muted] rfl 1 frame_host_hard_muted rfl⟩

/-! ## Video geometry -/

theorem Flt.toRat_mk (m : Nat) (k : Nat) :
    Flt.toRat ⟨m, -(k : Int)⟩ = (m : ℚ) / 2 ^ k := by
  simp [Flt.toRat, zpow_neg, div_eq_mul_inv]

theorem aspect_ratio_values :
    Flt.round sgl NES_4_3 = ⟨11184811, -23⟩ ∧
    Flt.round sgl (NES_PAR 240 224) = ⟨10271765, -23⟩ ∧
    Flt.round sgl (NES_PAR 256 224) = ⟨10956549, -23⟩ ∧
    Flt.round sgl (NES_PAR 240 240) = ⟨9586981, -23⟩ ∧
    Flt.round sgl (NES_PAR 256 240) = ⟨10226113, -23⟩ := by
  decide

/-- C5, as stated, fails: with both overscan flags off the reported aspect ratio is a
single-precision number, which is neither 4/3 in 4:3 mode nor 240 * (8/7) / 224 in PAR
mode. -/
theorem aspect_ratio_not_exact :
    (retro_get_system_av_info globals_initial).aspect_ratio.toRat ≠ 4 / 3 ∧
    (retro_get_system_av_info { globals_initial with aspect_ratio_par := true }).aspect_ratio.toRat
      ≠ 240 * (8 / 7) / 224 := by
  have h1 : (retro_get_system_av_info globals_initial).aspect_ratio = ⟨11184811, -23⟩ := by
    decide
  have h2 : (retro_get_system_av_info
      { globals_initial with aspect_ratio_par := true }).aspect_ratio = ⟨10271765, -23⟩ := by
    decide
  rw [h1, h2]
  have e : (-23 : Int) = -((23 : Nat) : Int) := rfl
  rw [e, Flt.toRat_mk, Flt.toRat_mk]
  constructor <;> norm_num

theorem retro_get_system_av_info_closed : ∀ par ov oh : Bool,
    retro_get_system_av_info ⟨par, ov, oh, false, none, false⟩ =
      { base_width := if oh then 256 else 240
        base_height := if ov then 240 else 224
        max_width := if oh then 256 else 240
        max_height := if ov then 240 else 224
        aspect_ratio :=
          ⟨if par then
            (if oh then (if ov then 10226113 else 10956549)
              else (if ov then 9586981 else 10271765))
            else 11184811, -23⟩ } := by
  decide

/-- The geometry `retro_get_system_av_info` reports, flag by flag. -/
theorem retro_get_system_av_info_table (g : Globals) :
    retro_get_system_av_info g =
      { base_width := if g.use_overscan_h then 256 else 240
        base_height := if g.use_overscan_v then 240 else 224
        max_width := if g.use_overscan_h then 256 else 240
        max_height := if g.use_overscan_v then 240 else 224
        aspect_ratio :=
          ⟨if g.aspect_ratio_par then
            (if g.use_overscan_h then (if g.use_overscan_v then 10226113 else 10956549)
              else (if g.use_overscan_v then 9586981 else 10271765))
            else 11184811, -((23 : Nat) : Int)⟩ } := by
  obtain ⟨par, ov, oh, ud, cur, sil⟩ := g
  have frame : retro_get_system_av_info ⟨par, ov, oh, ud, cur, sil⟩ =
      retro_get_system_av_info ⟨par, ov, oh, false, none, false⟩ := by
    simp only [retro_get_system_av_info, get_aspect_ratio]
  rw [frame, retro_get_system_av_info_closed]
  rfl

/-- C5, amended: `retro_get_system_av_info` depends on `use_overscan_h`, `use_overscan_v`
and `aspect_ratio_par` only.  It reports base and maximum width 256 minus 16 unless
`use_overscan_h`, base and maximum height 240 minus 16 unless `use_overscan_v`, and as
aspect ratio the `float` obtained by rounding the `double` value of `4.0 / 3.0` (4:3 mode)
or of `width * (8.0 / 7.0) / height` for the reported width and height (PAR mode): that
is `11184811 / 2 ^ 23` in 4:3 mode and, in PAR mode, `10271765 / 2 ^ 23` for 240x224,
`10956549 / 2 ^ 23` for 256x224, `9586981 / 2 ^ 23` for 240x240 and `10226113 / 2 ^ 23`
for 256x240; each is the `float` nearest to the exact quotient `4 / 3` or
`width * (8 / 7) / height`, less than `2 ^ (-24)` away from it. -/
theorem retro_get_system_av_info_geometry (g : Globals) :
    (retro_get_system_av_info g).base_width = 256 - (if g.use_overscan_h then 0 else 16) ∧
    (retro_get_system_av_info g).max_width = 256 - (if g.use_overscan_h then 0 else 16) ∧
    (retro_get_system_av_info g).base_height = 240 - (if g.use_overscan_v then 0 else 16) ∧
    (retro_get_system_av_info g).max_height = 240 - (if g.use_overscan_v then 0 else 16) ∧
    (∀ g2 : Globals, g2.use_overscan_h = g.use_overscan_h →
      g2.use_overscan_v = g.use_overscan_v → g2.aspect_ratio_par = g.aspect_ratio_par →
      retro_get_system_av_info g2 = retro_get_system_av_info g) ∧
    (retro_get_system_av_info g).aspect_ratio =
      Flt.round sgl (if g.aspect_ratio_par then
        NES_PAR (retro_get_system_av_info g).base_width (retro_get_system_av_info g).base_height
        else NES_4_3) ∧
    (retro_get_system_av_info g).aspect_ratio.toRat =
      (if g.aspect_ratio_par then
        (if g.use_overscan_h then (if g.use_overscan_v then 10226113 else 10956549)
          else (if g.use_overscan_v then 9586981 else 10271765))
        else 11184811) / 2 ^ 23 ∧
    (retro_get_system_av_info g).aspect_ratio =
      (if g.aspect_ratio_par then
        roundRatio sgl ((retro_get_system_av_info g).base_width * 8)
          (7 * (retro_get_system_av_info g).base_height)
        else roundRatio sgl 4 3) ∧
    |(retro_get_system_av_info g).aspect_ratio.toRat -
      (if g.aspect_ratio_par then
        ((retro_get_system_av_info g).base_width : ℚ) * (8 / 7) /
          ((retro_get_system_av_info g).base_height : ℚ)
        else 4 / 3)| < 1 / 2 ^ 24 := by
  refine ⟨?_, ?_, ?_, ?_, ?_, ?_, ?_, ?_, ?_⟩
  · rw [retro_get_system_av_info_table]; cases g.use_overscan_h <;> rfl
  · rw [retro_get_system_av_info_table]; cases g.use_overscan_h <;> rfl
  · rw [retro_get_system_av_info_table]; cases g.use_overscan_v <;> rfl
  · rw [retro_get_system_av_info_table]; cases g.use_overscan_v <;> rfl
  · intro g2 hh hv hp
    rw [retro_get_system_av_info_table, retro_get_system_av_info_table, hh, hv, hp]
  · rfl
  · rw [retro_get_system_av_info_table]
    simp only [Flt.toRat_mk]
    cases g.aspect_ratio_par <;> cases g.use_overscan_h <;> cases g.use_overscan_v <;>
      norm_num
  · rw [retro_get_system_av_info_table]
    simp only []
    cases g.aspect_ratio_par <;> cases g.use_overscan_h <;> cases g.use_overscan_v <;>
      decide
  · rw [retro_get_system_av_info_table]
    simp only [Flt.toRat_mk]
    cases g.aspect_ratio_par <;> cases g.use_overscan_h <;> cases g.use_overscan_v <;>
      norm_num [abs_lt]

/-! ## Loops over arrays -/

/-- Invariant rule for `for_loop`: an invariant that holds initially and is re-established
by every body that runs gives a loop that completes with the invariant at `n`. -/
theorem for_loop_invariant {σ : Type} (P : Nat → σ → Prop) (n : Nat)
    (body : Nat → σ → Option σ) (s : σ) (h0 : P 0 s)
    (hstep : ∀ k t, k < n → P k t → ∃ t1, body k t = some t1 ∧ P (k + 1) t1) :
    ∃ t, for_loop n body s = some t ∧ P n t := by
  induction n with
  | zero => exact ⟨s, rfl, h0⟩
  | succ m ih =>
    obtain ⟨t, ht, hP⟩ := ih (fun k t hk hPk => hstep k t (Nat.lt_succ_of_lt hk) hPk)
    obtain ⟨t1, ht1, hP1⟩ := hstep m t (Nat.lt_succ_self m) hP
    exact ⟨t1, by rw [for_loop_succ, ht, Option.some_bind, ht1], hP1⟩

theorem Mem.write_some {α : Type} (a : Mem α) (i : Nat) (v : α) (h : i < a.size) :
    a.write i v = some ⟨a.size, fun j => if j = i then v else a.data j⟩ := by
  simp [Mem.write, h]

theorem Mem.read_some {α : Type} (a : Mem α) (i : Nat) (h : i < a.size) :
    a.read i = some (a.data i) := by
  simp [Mem.read, h]

/-! ## Video conversion -/

/-- The 5-6-5 packing fits in 16 bits, so the `uint16_t` store keeps it as it is. -/
theorem rgb565_eq (rgb : rgb_t) :
    rgb565 rgb =
      ((((rgb.red : Nat) &&& 0xf8) <<< 8) ||| (((rgb.green : Nat) &&& 0xfc) <<< 3) |||
        (((rgb.blue : Nat) &&& 0xf8) >>> 3)) := by
  unfold rgb565
  apply Nat.mod_eq_of_lt
  have hr : ((rgb.red : Nat) &&& 0xf8) <<< 8 < 2 ^ 16 := by
    have : (rgb.red : Nat) &&& 0xf8 ≤ 0xf8 := Nat.and_le_right
    rw [Nat.shiftLeft_eq]
    omega
  have hg : ((rgb.green : Nat) &&& 0xfc) <<< 3 < 2 ^ 16 := by
    have : (rgb.green : Nat) &&& 0xfc ≤ 0xfc := Nat.and_le_right
    rw [Nat.shiftLeft_eq]
    omega
  have hb : ((rgb.blue : Nat) &&& 0xf8) >>> 3 < 2 ^ 16 := by
    have : (rgb.blue : Nat) &&& 0xf8 ≤ 0xf8 := Nat.and_le_right
    rw [Nat.shiftRight_eq_div_pow]
    omega
  exact Nat.or_lt_two_pow (Nat.or_lt_two_pow hr hg) hb

/-- The palette loop completes and leaves entry `i` holding the packed colour
`nes_colors[frame.palette[i]]` for every `i` below 256. -/
theorem fill_palette_spec (nes_colors : Nat → rgb_t) (frame : frame_t) (pal0 : Nat → Nat) :
    ∃ pal : Mem Nat, fill_palette nes_colors frame ⟨256, pal0⟩ = some pal ∧ pal.size = 256 ∧
      ∀ i, i < 256 → pal.data i = rgb565 (nes_colors (frame.palette i)) := by
  unfold fill_palette
  apply for_loop_invariant
    (fun k (pal : Mem Nat) => pal.size = 256 ∧
      ∀ i, i < k → pal.data i = rgb565 (nes_colors (frame.palette i)))
  · exact ⟨rfl, fun i hi => absurd hi (Nat.not_lt_zero i)⟩
  · intro k t hk ⟨hsz, hdata⟩
    refine ⟨_, Mem.write_some t k _ (by omega), hsz, ?_⟩
    intro i hi
    by_cases hik : i = k
    · simp [hik]
    · simp only [hik, if_false]
      exact hdata i (by omega)

/-- The conversion loops complete and leave element `256 * y + x` of `video_buffer`
holding the palette entry of the pixel at `272 * y + x` of the plane, for every `y` below
240 and `x` below 256. -/
theorem fill_video_buffer_spec (frame : frame_t) (pal : Mem Nat) (hpal : pal.size = 256)
    (vb0 : Nat → Nat) :
    ∃ vb : Mem Nat,
      fill_video_buffer frame pal ⟨Nes_Emu.image_width * Nes_Emu.image_height, vb0⟩ = some vb ∧
      vb.size = 256 * 240 ∧
      ∀ y x, y < 240 → x < 256 →
        vb.data (256 * y + x) = pal.data (frame.pixels (272 * y + x)) := by
  unfold fill_video_buffer
  simp only [Nes_Emu.image_width, Nes_Emu.image_height, videoBufferWidth, frame_t.plane,
    videoBufferHeight]
  apply for_loop_invariant
    (fun k (vb : Mem Nat) => vb.size = 256 * 240 ∧
      ∀ y x, y < k → x < 256 → vb.data (256 * y + x) = pal.data (frame.pixels (272 * y + x)))
  · exact ⟨rfl, fun y x hy => absurd hy (Nat.not_lt_zero y)⟩
  · intro k t hk ⟨hsz, hrows⟩
    have inner := for_loop_invariant
      (fun j (vb1 : Mem Nat) => vb1.size = 256 * 240 ∧
        (∀ y x, y < k → x < 256 →
          vb1.data (256 * y + x) = pal.data (frame.pixels (272 * y + x))) ∧
        (∀ x, x < j → vb1.data (256 * k + x) = pal.data (frame.pixels (272 * k + x))))
      256
      (fun x vb1 =>
        (Mem.read ⟨(256 + 16) * (240 + 2), frame.pixels⟩ ((256 + 16) * k + x)).bind fun px =>
        (pal.read px).bind fun c => vb1.write (256 * k + x) c)
      t ⟨hsz, hrows, fun x hx => absurd hx (Nat.not_lt_zero x)⟩
      (by
        intro j u hj ⟨husz, hurows, hucols⟩
        have hrd : Mem.read ⟨(256 + 16) * (240 + 2), frame.pixels⟩ ((256 + 16) * k + j) =
            some (frame.pixels ((256 + 16) * k + j)) :=
          Mem.read_some _ _ (by simp only []; omega)
        have hpr : pal.read (frame.pixels ((256 + 16) * k + j)) =
            some (pal.data (frame.pixels ((256 + 16) * k + j))) :=
          Mem.read_some _ _ (by rw [hpal]; exact (frame.pixels _).isLt)
        refine ⟨⟨u.size, fun i => if i = 256 * k + j
            then pal.data (frame.pixels ((256 + 16) * k + j)) else u.data i⟩, ?_, husz, ?_, ?_⟩
        · show (Mem.read ⟨(256 + 16) * (240 + 2), frame.pixels⟩ ((256 + 16) * k + j)).bind
            (fun px => (pal.read px).bind fun c => u.write (256 * k + j) c) = _
          rw [hrd, Option.some_bind, hpr, Option.some_bind, Mem.write_some u _ _ (by omega)]
        · intro y x hy hx
          have hne : 256 * y + x ≠ 256 * k + j := by omega
          simp only [hne, if_false]
          exact hurows y x hy hx
        · intro x hx
          by_cases hxj : x = j
          · subst hxj; simp
          · have hne : 256 * k + x ≠ 256 * k + j := by omega
            simp only [hne, if_false]
            exact hucols x (by omega))
    obtain ⟨t1, ht1, hsz1, hrows1, hcols1⟩ := inner
    refine ⟨t1, ht1, hsz1, ?_⟩
    intro y x hy hx
    by_cases hyk : y = k
    · subst hyk; exact hcols1 x hx
    · exact hrows1 y x (by omega) hx

/-- The video path completes: it calls `video_cb` with the filled `video_buffer`, whose
element `256 * y + x` is the packed colour of the plane pixel at `272 * y + x`. -/
theorem retro_run_video_spec (g : Globals) (nes_colors : Nat → rgb_t) (frame : frame_t)
    (vb0 pal0 : Nat → Nat) :
    ∃ vb : Mem Nat,
      retro_run_video g nes_colors frame vb0 pal0 =
        some (Call.video_cb vb (video_offset g)
          (256 - (if g.use_overscan_h then 0 else 16))
          (240 - (if g.use_overscan_v then 0 else 16)) (256 * 2)) ∧
      vb.size = 256 * 240 ∧
      ∀ y x, y < 240 → x < 256 →
        vb.data (256 * y + x) = rgb565 (nes_colors (frame.palette (frame.pixels (272 * y + x)))) := by
  obtain ⟨pal, hpal, hpsz, hpdata⟩ := fill_palette_spec nes_colors frame pal0
  obtain ⟨vb, hvb, hvsz, hvdata⟩ := fill_video_buffer_spec frame pal hpsz vb0
  refine ⟨vb, ?_, hvsz, ?_⟩
  · unfold retro_run_video
    rw [hpal, Option.some_bind, hvb, Option.some_bind]
    rfl
  · intro y x hy hx
    rw [hvdata y x hy hx, hpdata _ (frame.pixels _).isLt]

/-- C6: for every frame, palette and combination of the overscan flags, `retro_run` calls
the video sink with width 256 minus 16 unless `use_overscan_h`, height 240 minus 16 unless
`use_overscan_v` and a pitch of 256 pixels (512 bytes), and the pixel at row `r`, column
`c` of that image is the 5-6-5 packing of the colour `nes_colors[palette[p]]` of the plane
pixel `p` at row `r + oy`, column `c + ox` (row stride 272), where `ox` and `oy` are 0 with
overscan shown and 8 without. -/
theorem video_sink_image (g : Globals) (nes_colors : Nat → rgb_t) (frame : frame_t)
    (vb0 pal0 : Nat → Nat) :
    ∃ vb : Mem Nat,
      retro_run_video g nes_colors frame vb0 pal0 =
        some (Call.video_cb vb (video_offset g)
          (256 - (if g.use_overscan_h then 0 else 16))
          (240 - (if g.use_overscan_v then 0 else 16)) (256 * 2)) ∧
      (∀ r c, r < 240 - (if g.use_overscan_v then 0 else 16) →
        c < 256 - (if g.use_overscan_h then 0 else 16) →
        vb.data (video_offset g + r * 256 + c) =
          rgb565 (nes_colors (frame.palette (frame.pixels
            ((r + (if g.use_overscan_v then 0 else 8)) * 272 +
              (c + (if g.use_overscan_h then 0 else 8))))))) ∧
      ∀ rgb : rgb_t, rgb565 rgb =
        ((((rgb.red : Nat) &&& 0xf8) <<< 8) ||| (((rgb.green : Nat) &&& 0xfc) <<< 3) |||
          (((rgb.blue : Nat) &&& 0xf8) >>> 3)) := by
  obtain ⟨vb, hcall, -, hdata⟩ := retro_run_video_spec g nes_colors frame vb0 pal0
  refine ⟨vb, hcall, ?_, rgb565_eq⟩
  intro r c hr hc
  have hoff : video_offset g + r * 256 + c =
      256 * (r + (if g.use_overscan_v then 0 else 8)) +
        (c + (if g.use_overscan_h then 0 else 8)) := by
    unfold video_offset
    cases g.use_overscan_v <;> cases g.use_overscan_h <;> simp <;> omega
  have hy : r + (if g.use_overscan_v then 0 else 8) < 240 := by
    cases hv : g.use_overscan_v <;> simp [hv] at hr ⊢ <;> omega
  have hx : c + (if g.use_overscan_h then 0 else 8) < 256 := by
    cases hh : g.use_overscan_h <;> simp [hh] at hc ⊢ <;> omega
  rw [hoff, hdata _ _ hy hx, Nat.mul_comm 272]

/-- C7: in the video conversion every plane index `272 * y + x` that is read (`y` below
240, `x` below 256) lies inside the plane of `272 * 242` bytes, every pixel value used as
a lookup index is below 256, the conversion completes without an access outside an
array, and for every combination of the overscan flags each element of the window handed
to the video sink lies inside the `256 * 240` elements of `video_buffer`. -/
theorem video_accesses_in_bounds (g : Globals) (nes_colors : Nat → rgb_t) (frame : frame_t)
    (vb0 pal0 : Nat → Nat) :
    frame.plane.size = 272 * 242 ∧
    (∀ y x, y < 240 → x < 256 → videoBufferWidth * y + x < frame.plane.size) ∧
    (∀ i, ((frame.pixels i : Fin 256) : Nat) < 256) ∧
    ∃ (vb : Mem Nat) (offset width height pitch : Nat),
      retro_run_video g nes_colors frame vb0 pal0 =
        some (Call.video_cb vb offset width height pitch) ∧
      vb.size = 256 * 240 ∧
      width = (retro_get_system_av_info g).base_width ∧
      height = (retro_get_system_av_info g).base_height ∧
      ∀ r c, r < height → c < width → offset + r * 256 + c < vb.size := by
  refine ⟨rfl, ?_, fun i => (frame.pixels i).isLt, ?_⟩
  · intro y x hy hx
    simp only [frame_t.plane, videoBufferWidth, videoBufferHeight, Nes_Emu.image_width,
      Nes_Emu.image_height]
    omega
  · obtain ⟨vb, hcall, hsz, -⟩ := retro_run_video_spec g nes_colors frame vb0 pal0
    refine ⟨vb, _, _, _, _, hcall, hsz, ?_, ?_, ?_⟩
    · rw [retro_get_system_av_info_table]
      cases g.use_overscan_h <;> rfl
    · rw [retro_get_system_av_info_table]
      cases g.use_overscan_v <;> rfl
    · intro r c hr hc
      rw [hsz]
      unfold video_offset
      cases hv : g.use_overscan_v <;> cases hh : g.use_overscan_h <;>
        simp [hv, hh] at hr hc ⊢ <;> omega

/-! ## Audio shaping -/

/-- The duplication loop completes for up to 2048 samples and leaves sample `i` in
elements `2 * i` and `2 * i + 1` of `out_samples`. -/
theorem duplicate_samples_spec (samples : Nat → Int) (n : Nat) (hn : n ≤ 2048)
    (out0 : Nat → Int) :
    ∃ out : Mem Int,
      for_loop n (fun i out =>
        (Mem.read ⟨2048, samples⟩ i).bind fun v =>
        (out.write ((i <<< 1) + 1) v).bind fun out1 =>
        out1.write (i <<< 1) v) ⟨4096, out0⟩ = some out ∧
      out.size = 4096 ∧
      ∀ i, i < n → out.data (2 * i) = samples i ∧ out.data (2 * i + 1) = samples i := by
  apply for_loop_invariant
    (fun k (out : Mem Int) => out.size = 4096 ∧
      ∀ i, i < k → out.data (2 * i) = samples i ∧ out.data (2 * i + 1) = samples i)
  · exact ⟨rfl, fun i hi => absurd hi (Nat.not_lt_zero i)⟩
  · intro k t hk ⟨hsz, hdata⟩
    have hshift : k <<< 1 = 2 * k := by rw [Nat.shiftLeft_eq]; omega
    have hrd : Mem.read ⟨2048, samples⟩ k = some (samples k) :=
      Mem.read_some _ _ (by simp only []; omega)
    refine ⟨⟨t.size, fun j => if j = 2 * k then samples k
      else if j = 2 * k + 1 then samples k else t.data j⟩, ?_, hsz, ?_⟩
    · show (Mem.read ⟨2048, samples⟩ k).bind (fun v =>
        (t.write ((k <<< 1) + 1) v).bind fun out1 => out1.write (k <<< 1) v) = _
      rw [hrd, Option.some_bind, hshift, Mem.write_some t _ _ (by omega), Option.some_bind,
        Mem.write_some _ _ _ (by simp only []; omega)]
    · intro i hi
      by_cases hik : i = k
      · subst hik; simp
      · have h1 : 2 * i ≠ 2 * k := by omega
        have h2 : 2 * i ≠ 2 * k + 1 := by omega
        have h3 : 2 * i + 1 ≠ 2 * k := by omega
        have h4 : 2 * i + 1 ≠ 2 * k + 1 := by omega
        simp only [h1, h2, h3, h4, if_false]
        exact hdata i (by omega)

/-- The audio path completes for up to 2048 samples. -/
theorem retro_run_audio_some (g : Globals) (samples : Nat → Int) (n : Nat)
    (out0 : Nat → Int) (hn : n ≤ 2048) :
    ∃ c, retro_run_audio g samples n out0 = some c := by
  unfold retro_run_audio
  simp only []
  split
  · obtain ⟨out, hout, -, -⟩ := duplicate_samples_spec samples n hn out0
    rw [hout]
    exact ⟨_, rfl⟩
  · exact ⟨_, rfl⟩

/-- C8: for every sample count `n` up to 2048 returned by `read_samples`, when the active
strategy is not the effects buffer the audio sink receives `n` stereo frames from the
4096-entry array `out_samples`, frame `i` holding sample `i` in both channels, and no
write leaves the array; when the active strategy is the effects buffer the sink receives
the array `samples` itself with a frame count of `n / 2`. -/
theorem retro_run_audio_shape (g : Globals) (samples : Nat → Int) (n : Nat)
    (out0 : Nat → Int) (hn : n ≤ 2048) :
    (g.current_buffer ≠ some .effects_buffer →
      ∃ out : Mem Int,
        retro_run_audio g samples n out0 = some (Call.audio_batch_cb out n) ∧
        out.size = 4096 ∧
        ∀ i, i < n → out.data (2 * i) = samples i ∧ out.data (2 * i + 1) = samples i) ∧
    (g.current_buffer = some .effects_buffer →
      retro_run_audio g samples n out0 =
        some (Call.audio_batch_cb ⟨2048, samples⟩ (n / 2))) := by
  constructor
  · intro hne
    obtain ⟨out, hout, hsz, hdata⟩ := duplicate_samples_spec samples n hn out0
    refine ⟨out, ?_, hsz, hdata⟩
    unfold retro_run_audio
    simp only [hne, ne_eq, not_false_eq_true, if_true]
    rw [hout, Option.some_bind]
  · intro he
    unfold retro_run_audio
    simp only [he, ne_eq, not_true_eq_false, if_false]
    rw [Nat.shiftRight_eq_div_pow]

/-- Witness for C8: three samples read in the initial state, where no buffer is active
yet. -/
theorem retro_run_audio_shape_witness :
    3 ≤ 2048 ∧ globals_initial.current_buffer ≠ some .effects_buffer ∧
      ∃ out : Mem Int,
        retro_run_audio globals_initial samples_example 3 (fun _ => 0) =
          some (Call.audio_batch_cb out 3) ∧
        out.size = 4096 ∧
        ∀ i, i < 3 →
          out.data (2 * i) = samples_example i ∧ out.data (2 * i + 1) = samples_example i :=
  ⟨by decide, by decide,
    (retro_run_audio_shape globals_initial samples_example 3 (fun _ => 0) (by decide)).1
      (by decide)⟩

/-! ## Memory regions -/

/-- C10: for every memory id `retro_get_memory_data` and `retro_get_memory_size` describe
the same region: system RAM gives (`low_mem`, `low_mem_size`), save RAM gives
(`high_mem`, `high_mem_size`) when the cartridge has battery RAM and (`NULL`, 0) when it
has none, every other id gives (`NULL`, 0).  With nonzero region sizes the size is 0
exactly when the pointer is `NULL`; neither function changes the core, and a repeated
query returns the same result. -/
theorem memory_region_consistent (ids : MemoryIds) (emu : Nes_Emu) (id : Nat)
    (hlow : 0 < emu.low_mem_size) (hhigh : 0 < emu.high_mem_size) :
    (id = ids.RETRO_MEMORY_SYSTEM_RAM →
      (retro_get_memory_data ids emu id).1 = some .low_mem ∧
      (retro_get_memory_size ids emu id).1 = emu.low_mem_size) ∧
    (id = ids.RETRO_MEMORY_SAVE_RAM → emu.has_battery_ram = true →
      (retro_get_memory_data ids emu id).1 = some .high_mem ∧
      (retro_get_memory_size ids emu id).1 = emu.high_mem_size) ∧
    (id = ids.RETRO_MEMORY_SAVE_RAM → emu.has_battery_ram = false →
      (retro_get_memory_data ids emu id).1 = none ∧ (retro_get_memory_size ids emu id).1 = 0) ∧
    (id ≠ ids.RETRO_MEMORY_SYSTEM_RAM → id ≠ ids.RETRO_MEMORY_SAVE_RAM →
      (retro_get_memory_data ids emu id).1 = none ∧ (retro_get_memory_size ids emu id).1 = 0) ∧
    ((retro_get_memory_size ids emu id).1 = 0 ↔ (retro_get_memory_data ids emu id).1 = none) ∧
    (retro_get_memory_data ids emu id).2 = emu ∧
    (retro_get_memory_size ids emu id).2 = emu ∧
    (retro_get_memory_data ids (retro_get_memory_data ids emu id).2 id).1 =
      (retro_get_memory_data ids emu id).1 ∧
    (retro_get_memory_size ids (retro_get_memory_size ids emu id).2 id).1 =
      (retro_get_memory_size ids emu id).1 := by
  have hdata2 : (retro_get_memory_data ids emu id).2 = emu := by
    unfold retro_get_memory_data
    repeat' split
    all_goals rfl
  have hsize2 : (retro_get_memory_size ids emu id).2 = emu := by
    unfold retro_get_memory_size
    repeat' split
    all_goals rfl
  refine ⟨?_, ?_, ?_, ?_, ?_, hdata2, hsize2, by rw [hdata2], by rw [hsize2]⟩
  · intro h
    subst h
    simp [retro_get_memory_data, retro_get_memory_size, Ne.symm ids.distinct]
  · intro h hb
    simp [retro_get_memory_data, retro_get_memory_size, h, hb]
  · intro h hb
    simp [retro_get_memory_data, retro_get_memory_size, h, hb]
  · intro h1 h2
    simp [retro_get_memory_data, retro_get_memory_size, h1, h2]
  · by_cases h2 : id = ids.RETRO_MEMORY_SAVE_RAM
    · cases hb : emu.has_battery_ram <;>
        simp [retro_get_memory_data, retro_get_memory_size, h2, hb]
      omega
    · by_cases h1 : id = ids.RETRO_MEMORY_SYSTEM_RAM
      · subst h1
        simp [retro_get_memory_data, retro_get_memory_size, Ne.symm ids.distinct]
        omega
      · simp [retro_get_memory_data, retro_get_memory_size, h1, h2]

/-- Witness for C10: a battery-backed cartridge queried for its save RAM. -/
theorem memory_region_consistent_witness :
    0 < emu_example.low_mem_size ∧ 0 < emu_example.high_mem_size ∧
      (retro_get_memory_data ids_example emu_example 0).1 = some .high_mem ∧
      (retro_get_memory_size ids_example emu_example 0).1 = 0x2000 :=
  ⟨by decide, by decide,
    (memory_region_consistent ids_example emu_example 0 (by decide) (by decide)).2.1
      rfl rfl⟩

/-! ## The frame pump as a whole -/

/-- The file-scope variables after `retro_run` are those its configuration part leaves:
the strategy that shapes a frame's samples is the one `audio_strategy_trace` records. -/
theorem retro_run_globals (host : FrameHost) (core : FrameCore) (g : Globals)
    (r : Globals × List Call) (h : retro_run host core g = some r) :
    r.1 = (retro_run_config host g).1 := by
  unfold retro_run at h
  simp only [Option.bind_eq_some] at h
  obtain ⟨pads, -, video, -, audio, -, hr⟩ := h
  simp only [Option.some.injEq] at hr
  rw [← hr]

/-- Whenever the core returns at most 2048 samples, `retro_run` completes: no array
access of the frame leaves its array. -/
theorem retro_run_completes (host : FrameHost) (core : FrameCore) (g : Globals)
    (hn : ∀ p0 p1, core.read_samples p0 p1 ≤ 2048) :
    ∃ r, retro_run host core g = some r := by
  unfold retro_run
  simp only []
  rw [update_input_eq, Option.some_bind]
  have hv : ∀ p0 p1, ∃ video,
      (if (!videoDisabledForThisFrame host) = true then
        (retro_run_video (retro_run_config host g).1 core.nes_colors (core.frame p0 p1)
          core.vb0 core.pal0).bind fun c => some [Call.emulate_frame p0 p1, c]
       else some [Call.emulate_skip_frame p0 p1]) = some video := by
    intro p0 p1
    split
    · obtain ⟨vb, hcall, -, -⟩ := retro_run_video_spec (retro_run_config host g).1
        core.nes_colors (core.frame p0 p1) core.vb0 core.pal0
      rw [hcall]
      exact ⟨_, rfl⟩
    · exact ⟨_, rfl⟩
  have ha : ∀ p0 p1, ∃ audio,
      (if (!audioDisabledForThisFrame host) = true then
        (retro_run_audio (retro_run_config host g).1 (core.samples p0 p1)
          (core.read_samples p0 p1) core.out0).bind fun c => some [Call.read_samples false, c]
       else some [Call.read_samples true]) = some audio := by
    intro p0 p1
    split
    · obtain ⟨c, hc⟩ := retro_run_audio_some (retro_run_config host g).1
        (core.samples p0 p1) (core.read_samples p0 p1) core.out0 (hn p0 p1)
      rw [hc]
      exact ⟨_, rfl⟩
    · exact ⟨_, rfl⟩
  obtain ⟨video, hvideo⟩ := hv _ _
  obtain ⟨audio, haudio⟩ := ha _ _
  rw [hvideo, Option.some_bind, haudio, Option.some_bind]
  exact ⟨_, rfl⟩

end QuickNES
